import Mathlib

/-!
# Pixie menu shell: a shallow embedding of `db-page.js`

The script keeps its state in a handful of closure variables (`menuData`,
`selected`, `mode`, `audioPlayerFocus`), in the DOM (`menuRoot`, `fileHeader`,
`fileContent`) and talks to the outside world through sound cues, `fetch`
requests and `location.href`.  Here the closure variables and the DOM parts the
script reads back are fields of `State`; everything sent to the outside world is
appended to `State.effects`.  Every JavaScript function or callback is one Lean
function `State → … → State`.  A `fetch(...).then(f).catch(g)` is an effect
(the request) plus two functions (the callbacks `f` and `g`) that the event loop
runs later, on the state as it is at that moment.

Numbers are `Int` (indices, distances) or `ℚ` (the audio volume); strings are
`String`; a field that a descriptor may leave out is an `Option`.
-/

namespace Pixie

/-! ## JavaScript helpers -/

/-- Truthiness of an optional string: `undefined` and `''` are falsy. -/
def truthy : Option String → Bool
  | some s => s != ""
  | none => false

/-- The operator `a || b` on optional strings. -/
def jsOr (a b : Option String) : Option String :=
  if truthy a then a else b

/-- The operator `a || 'literal'` whose right operand is a string literal. -/
def orStr (a : Option String) (b : String) : String :=
  match a with
  | some s => if s != "" then s else b
  | none => b

/-- The method `s.endsWith(suffix)`. -/
def endsWith (s suffix : String) : Bool :=
  suffix.data.isSuffixOf s.data

/-- An optional string inside a template literal: `undefined` prints as such. -/
def template : Option String → String
  | some s => s
  | none => "undefined"

/-- Array indexing `items[i]`: `undefined` (here `none`) outside the array. -/
def jsIndex {α : Type} (items : List α) (i : Int) : Option α :=
  if i < 0 then none else items[i.toNat]?

/-- The remainder operator `a % b` (truncated, sign of the dividend), for `b ≠ 0`. -/
def jsRem (a b : Int) : Int :=
  Int.tmod a b

/-- Line 147: `clamp(n,min,max) = Math.max(min, Math.min(max, n))`. -/
def clamp (n min max : Int) : Int :=
  Max.max min (Min.min max n)

/-! ## Data model -/

/-- One entry of a menu descriptor: `{ label, type?, target? }`. -/
structure MenuItem where
  label : String
  type : Option String := none
  target : Option String := none
deriving DecidableEq, Repr

/-- A menu descriptor as parsed from its JSON document.  The JSON key `return`
is the field `return_`; an absent `autoload` is `false`. -/
structure MenuData where
  items : List MenuItem
  variant : Option String := none
  return_ : Option String := none
  filetype : Option String := none
  autoload : Bool := false
  folder : Option String := none
deriving DecidableEq, Repr

/-- The variable `mode`: `'menu'` or `'file'`. -/
inductive Mode where
  | menu
  | file
deriving DecidableEq, Repr

/-- CSS classes the renderer puts on a list element; `dim d` is the class
`'dim-' + d`. -/
inductive Cls where
  | menuItem
  | empty
  | highlight
  | dim (d : Nat)
deriving DecidableEq, Repr

/-- One `<li>` of `menuRoot`: `dataset.index`, `classList`, and the text of its
`span.label` child (`none` for the bare `<span>` of an empty slot). -/
structure Element where
  index : Int
  classes : List Cls
  label : Option String
deriving DecidableEq, Repr

/-- Which call site issued a `fetchMenu`; it decides the `catch` callback. -/
inductive Origin where
  | enterReturn
  | enterTarget
  | backspace
deriving DecidableEq, Repr

/-- What the script sends to the outside world. -/
inductive Effect where
  | playSound (src soundType : String)
  | render
  | fetchMenu (path : String) (origin : Origin)
  | fetchManifest (path : String)
  | fetchFile (path : String)
  | navigate (href : String)
  | click (button : Int)
  | scrollBy (top : Int)
  | log (msg : String)
deriving DecidableEq, Repr

/-- The children of `fileContent`.  `audioPlayer src buttons` is the
`.custom-audio-player` element with `buttons` elements of class `.audio-btn`. -/
inductive FileContent where
  | empty
  | image (src : String)
  | audioPlayer (src : String) (buttons : Nat)
  | text (markdown : Bool) (raw : String)
deriving DecidableEq, Repr

/-- The closure variables of the script, the DOM parts it reads back, and the
trace of effects emitted so far. -/
structure State where
  menuData : MenuData
  selected : Int := 0
  mode : Mode := Mode.menu
  menuRoot : List Element := []
  fileHeader : String := ""
  fileContent : FileContent := FileContent.empty
  audioPlayerFocus : Int := -1
  effects : List Effect := []
deriving DecidableEq, Repr

/-! ## Layout renderer (lines 17–99) -/

/-- `el.classList.add(c)`: a class list holds a class once. -/
def classAdd (cl : List Cls) (c : Cls) : List Cls :=
  if c ∈ cl then cl else cl ++ [c]

/-- `el.classList.remove(...cs)`. -/
def classRemove (cl : List Cls) (cs : List Cls) : List Cls :=
  cl.filter (fun c => decide (c ∉ cs))

/-- Lines 17–26: `playSound(src, soundType)` plays one cue. -/
def playSound (st : State) (src soundType : String) : State :=
  { st with effects := st.effects ++ [Effect.playSound src soundType] }

/-- Line 32: `clearMenu()` empties `menuRoot`; this starts a re-render. -/
def clearMenu (st : State) : State :=
  { st with menuRoot := [], effects := st.effects ++ [Effect.render] }

/-- Lines 87–99, the body of the `forEach`: drop the five distance classes,
then tag by distance from `selected`. -/
def updateHighlightEl (selected : Int) (el : Element) : Element :=
  let cl := classRemove el.classes
    [Cls.highlight, Cls.dim 1, Cls.dim 2, Cls.dim 3, Cls.dim 4]
  if el.index = selected then { el with classes := classAdd cl Cls.highlight }
  else
    let dist := (el.index - selected).natAbs
    if 1 ≤ dist ∧ dist ≤ 4 then { el with classes := classAdd cl (Cls.dim dist) }
    else { el with classes := cl }

/-- Lines 87–99: `updateHighlight()`. -/
def updateHighlight (st : State) : State :=
  { st with menuRoot := st.menuRoot.map (updateHighlightEl st.selected) }

/-- Lines 37–40: the `<li>` built for item `idx` of the locked layout. -/
def lockedElement (it : MenuItem) (idx : Nat) : Element :=
  { index := idx, classes := [Cls.menuItem], label := some (orStr (some it.label) "") }

/-- Lines 34–46: `renderLocked(items)`. -/
def renderLocked (st : State) (items : List MenuItem) : State :=
  let st1 := clearMenu st
  updateHighlight
    { st1 with menuRoot := st1.menuRoot ++
        items.enum.map (fun p => lockedElement p.2 p.1) }

/-- Line 64: `slots`. -/
def slots : Nat := 9

/-- Line 65: `centerOffset = Math.floor(slots/2)`. -/
def centerOffset : Nat := slots / 2

/-- Lines 67–81: the `<li>` built for slot `s` of the scroll layout. -/
def scrollSlot (items : List MenuItem) (selected : Int) (s : Nat) : Element :=
  let idx : Int := selected + ((s : Int) - (centerOffset : Int))
  let dist := (idx - selected).natAbs
  if idx < 0 ∨ idx ≥ (items.length : Int) then
    { index := idx
      classes :=
        if 1 ≤ dist ∧ dist ≤ 4 then classAdd [Cls.menuItem, Cls.empty] (Cls.dim dist)
        else [Cls.menuItem, Cls.empty]
      label := none }
  else
    { index := idx
      classes :=
        if dist = 0 then classAdd [Cls.menuItem] Cls.highlight
        else if dist ≤ 4 then classAdd [Cls.menuItem] (Cls.dim dist)
        else [Cls.menuItem]
      label := (jsIndex items idx).map (fun it => orStr (some it.label) "") }

/-- Lines 58–85: `renderScroll(items)`; the loop appends slots `0 … 8`. -/
def renderScroll (st : State) (items : List MenuItem) : State :=
  let st1 := clearMenu st
  { st1 with menuRoot := st1.menuRoot ++
      (List.range slots).map (scrollSlot items st1.selected) }

/-! ## Refresh and autoload (lines 101–145) -/

/-- Lines 119–124, 128–133 and 138–144: render by variant, then
`updateHighlight()`. -/
def renderCurrent (st : State) : State :=
  updateHighlight
    (if st.menuData.variant = some "locked" then renderLocked st st.menuData.items
     else renderScroll st st.menuData.items)

/-- Line 105: the test `menuData.autoload && menuData.folder`. -/
def wantsAutoload (d : MenuData) : Bool :=
  d.autoload && truthy d.folder

/-- Line 106: the manifest path for the folder. -/
def manifestPath (d : MenuData) : String :=
  "db/" ++ template d.folder ++ "/files.json"

/-- Lines 101–145: `refresh()`.  With autoload it only issues the manifest
request (rendering waits for the reply), otherwise it renders at once. -/
def refresh (st : State) : State :=
  if wantsAutoload st.menuData then
    { st with effects := st.effects ++ [Effect.fetchManifest (manifestPath st.menuData)] }
  else renderCurrent st

/-- Lines 113–115: the merged item list. -/
def mergeItems (items : List MenuItem) (files : List String) : List MenuItem :=
  let baseItems := items.take 1
  let fileItems := files.map (fun f => ({ label := f } : MenuItem))
  baseItems ++ fileItems

/-- Lines 111–124: the `then` callback of the manifest request. -/
def manifestResolved (st : State) (files : List String) : State :=
  let st1 := { st with menuData := { st.menuData with items := mergeItems st.menuData.items files } }
  let st2 := { st1 with selected := Min.min st1.selected ((st1.menuData.items.length : Int) - 1) }
  renderCurrent st2

/-- Lines 125–134: the `catch` callback of the manifest request. -/
def manifestRejected (st : State) : State :=
  renderCurrent { st with effects := st.effects ++ [Effect.log "Autoload failed:"] }

/-! ## File viewer open and close (lines 333–357, 677–696, 720–730) -/

/-- Number of `.audio-btn` elements `openFileViewer` builds: six in row 1,
the download button and five speed buttons in row 2. -/
def builtAudioButtons : Nat := 6 + 1 + 5

/-- Lines 339–344: the path of the file to show. -/
def filePath (d : MenuData) (label filetype : String) : String :=
  let folder := orStr d.folder
    (if filetype = "image" then "png" else if filetype = "audio" then "mp3" else filetype)
  "db/" ++ folder ++ "/" ++ label

/-- Lines 333–697: `openFileViewer(label, filetype)`, up to the content it
installs; text and markdown content arrives later, by a file request. -/
def openFileViewer (st : State) (label filetype : String) : State :=
  let st1 := { st with mode := Mode.file, fileHeader := label }
  let path := filePath st1.menuData label filetype
  if filetype = "image" then { st1 with fileContent := FileContent.image path }
  else if filetype = "audio" then
    { st1 with fileContent := FileContent.audioPlayer path builtAudioButtons }
  else { st1 with effects := st1.effects ++ [Effect.fetchFile path] }

/-- Lines 682–692: the `then` callback of the file request. -/
def fileResolved (st : State) (filetype text : String) : State :=
  { st with fileContent := FileContent.text (decide (filetype = "md")) text }

/-- Lines 693–695: the `catch` callback of the file request. -/
def fileRejected (st : State) (message : String) : State :=
  { st with fileContent := FileContent.text false ("Failed to load file: " ++ message) }

/-- Lines 720–730: `closeFileView()`. -/
def closeFileView (st : State) : State :=
  { st with
    mode := Mode.menu
    fileHeader := ""
    fileContent := FileContent.empty
    audioPlayerFocus := -1 }

/-! ## Keyboard dispatch (lines 159–268) -/

/-- Line 162: `fileContent.querySelector('.custom-audio-player')`, as the
number of `.audio-btn` buttons of the player found. -/
def audioPlayerOf : FileContent → Option Nat
  | FileContent.audioPlayer _ buttons => some buttons
  | _ => none

/-- Line 181 and 194: `gridColumns`. -/
def gridColumns : Int := 6

/-- Lines 170–212: a key in file mode while an audio player with
`totalButtons` buttons is shown. -/
def audioKey (st : State) (totalButtons : Int) (key : String) : State :=
  if key = "ArrowRight" ∨ key = "d" then
    { st with audioPlayerFocus := jsRem (st.audioPlayerFocus + 1) totalButtons }
  else if key = "ArrowLeft" ∨ key = "a" then
    { st with audioPlayerFocus := jsRem (st.audioPlayerFocus - 1 + totalButtons) totalButtons }
  else if key = "ArrowDown" then
    let focus := if st.audioPlayerFocus < 0 then 0 else st.audioPlayerFocus
    if focus < gridColumns then
      let candidate := gridColumns + jsRem focus gridColumns
      { st with audioPlayerFocus := if candidate < totalButtons then candidate else totalButtons - 1 }
    else { st with audioPlayerFocus := focus - gridColumns }
  else if key = "ArrowUp" then
    let focus := if st.audioPlayerFocus < 0 then 0 else st.audioPlayerFocus
    if focus ≥ gridColumns then { st with audioPlayerFocus := focus - gridColumns }
    else
      let candidate := gridColumns + jsRem focus gridColumns
      { st with audioPlayerFocus := if candidate < totalButtons then candidate else focus }
  else if key = "Enter" then
    if st.audioPlayerFocus ≥ 0 ∧ st.audioPlayerFocus < totalButtons then
      { st with effects := st.effects ++ [Effect.click st.audioPlayerFocus] }
    else st
  else if key = "Backspace" then
    closeFileView (playSound st "assets/sounds/blip.mp3" "blip")
  else st

/-- Lines 216–222: a key in file mode without an audio player. -/
def scrollKey (st : State) (key : String) : State :=
  if key = "ArrowDown" ∨ key = "s" then
    { st with effects := st.effects ++ [Effect.scrollBy 48] }
  else if key = "ArrowUp" ∨ key = "w" then
    { st with effects := st.effects ++ [Effect.scrollBy (-48)] }
  else if key = "Backspace" then
    closeFileView (playSound st "assets/sounds/blip.mp3" "blip")
  else st

/-- Lines 229–259: Enter in menu mode. -/
def enterKey (st : State) : State :=
  let st1 := playSound st "assets/sounds/blip.mp3" "blip"
  match jsIndex st1.menuData.items st1.selected with
  | none => st1
  | some item =>
    if item.type = some "return" then
      let tgt := orStr (jsOr item.target st1.menuData.return_) "index.html"
      if endsWith tgt ".json" then
        { st1 with effects := st1.effects ++ [Effect.fetchMenu tgt Origin.enterReturn] }
      else { st1 with effects := st1.effects ++ [Effect.navigate tgt] }
    else if truthy item.target && endsWith (orStr item.target "") ".json" then
      { st1 with effects := st1.effects ++
          [Effect.fetchMenu (orStr item.target "") Origin.enterTarget] }
    else if st1.menuData.variant = some "scroll" ∧ truthy st1.menuData.filetype = true then
      let idx := st1.selected
      if idx ≥ 0 ∧ idx < (st1.menuData.items.length : Int) then
        match jsIndex st1.menuData.items idx with
        | none => st1
        | some it =>
          if ¬ (it.type = some "return" ∨ it.type = some "menu") then
            openFileViewer st1 it.label (orStr st1.menuData.filetype "")
          else st1
      else st1
    else st1

/-- Lines 260–267: Backspace in menu mode. -/
def backspaceKey (st : State) : State :=
  let st1 := playSound st "assets/sounds/blip.mp3" "blip"
  let returnTarget := orStr st1.menuData.return_ "index.html"
  if endsWith returnTarget ".json" then
    { st1 with effects := st1.effects ++ [Effect.fetchMenu returnTarget Origin.backspace] }
  else { st1 with effects := st1.effects ++ [Effect.navigate returnTarget] }

/-- Lines 159–268: `keyHandler(e)` for `e.key = key`. -/
def keyHandler (st : State) (key : String) : State :=
  let n : Int := st.menuData.items.length
  if st.mode = Mode.file then
    match audioPlayerOf st.fileContent with
    | some totalButtons => audioKey st totalButtons key
    | none => scrollKey st key
  else if key = "ArrowDown" ∨ key = "s" then
    let newSel := clamp (st.selected + 1) 0 (n - 1)
    if newSel ≠ st.selected then
      refresh (playSound { st with selected := newSel } "assets/sounds/beep.mp3" "beep")
    else st
  else if key = "ArrowUp" ∨ key = "w" then
    let newSel := clamp (st.selected - 1) 0 (n - 1)
    if newSel ≠ st.selected then
      refresh (playSound { st with selected := newSel } "assets/sounds/beep.mp3" "beep")
    else st
  else if key = "Enter" then enterKey st
  else if key = "Backspace" then backspaceKey st
  else st

/-! ## Descriptor requests (lines 28–30, 236, 245, 263, 271–281) -/

/-- The `then` callback of every `fetchMenu`: `menuData = d; selected = 0;
refresh()`. -/
def menuResolved (st : State) (d : MenuData) : State :=
  refresh { st with menuData := d, selected := 0 }

/-- The `catch` callback of a `fetchMenu`: Enter only logs (lines 236 and
245), Backspace logs and goes to `'index.html'` (line 263). -/
def menuRejected (st : State) (origin : Origin) : State :=
  match origin with
  | Origin.enterReturn => { st with effects := st.effects ++ [Effect.log "fetchMenu failed"] }
  | Origin.enterTarget => { st with effects := st.effects ++ [Effect.log "fetchMenu failed"] }
  | Origin.backspace =>
    { st with effects := st.effects ++ [Effect.log "fetchMenu failed", Effect.navigate "index.html"] }

/-- Lines 271–277: the state once the entry descriptor `data` has loaded. -/
def startMenu (data : MenuData) : State :=
  refresh { menuData := data, selected := 0 }

/-- What the event loop can deliver to the script. -/
inductive Event where
  | keydown (key : String)
  | menuResolved (d : MenuData)
  | menuRejected (origin : Origin)
  | manifestResolved (files : List String)
  | manifestRejected
  | fileResolved (filetype text : String)
  | fileRejected (message : String)
deriving DecidableEq, Repr

/-- One turn of the event loop. -/
def step (st : State) : Event → State
  | Event.keydown key => keyHandler st key
  | Event.menuResolved d => menuResolved st d
  | Event.menuRejected origin => menuRejected st origin
  | Event.manifestResolved files => manifestResolved st files
  | Event.manifestRejected => manifestRejected st
  | Event.fileResolved filetype text => fileResolved st filetype text
  | Event.fileRejected message => fileRejected st message

/-- Any finite run of the event loop. -/
def run (st : State) (events : List Event) : State :=
  events.foldl step st

/-! ## Audio control surface: volume (lines 486–490, 603–632)

The script's numbers are doubles.  A double is modelled by the rational it
denotes, and an arithmetic operation of the script by the exact operation
followed by `roundDouble`, the rounding of binary64 arithmetic. -/

/-- Rounding to the nearest integer, a tie going to the even one. -/
def roundHalfEven (x : ℚ) : ℤ :=
  if x - (⌊x⌋ : ℤ) < 1 / 2 then ⌊x⌋
  else if 1 / 2 < x - (⌊x⌋ : ℤ) then ⌊x⌋ + 1
  else if ⌊x⌋ % 2 = 0 then ⌊x⌋ else ⌊x⌋ + 1

/-- The double nearest to `x`, a tie going to the even mantissa: 53 bits of
mantissa at the binary exponent of `x`, the exponent not below -1022
(subnormals); magnitudes that overflow a double do not occur in the script. -/
def roundDouble (x : ℚ) : ℚ :=
  if x = 0 then 0
  else (roundHalfEven (x / (2 : ℚ) ^ (Max.max (Int.log 2 |x|) (-1022) - 52)) : ℚ)
    * (2 : ℚ) ^ (Max.max (Int.log 2 |x|) (-1022) - 52)

/-- The literal `0.2` of lines 617 and 622. -/
def step02 : ℚ := roundDouble 0.2

/-- The decimal that `x.toFixed(2)` prints for the double `x`: the hundredth
nearest to the exact value of `x`, a tie going to the larger magnitude.  The
unary plus in front of it reads the decimal back, as `roundDouble`. -/
def toFixed2 (x : ℚ) : ℚ :=
  if x < 0 then -((⌊(-x) * 100 + 1 / 2⌋ : ℤ) : ℚ) / 100
  else ((⌊x * 100 + 1 / 2⌋ : ℤ) : ℚ) / 100

/-- Line 467: `speedValues`, one per speed button, in button order. -/
def speedValues : List ℚ := [0.5, 1, 1.5, 2, 4]

/-- The closure variables of the audio player and the parts of its DOM the
script writes: `currentVolume`, the gain of `gainNode` once the WebAudio path
exists, `audio.volume`, the position of the volume thumb in percent of the bar;
`isPlaying`, `currentSpeed`, `audio.playbackRate`, the `active` class of the
five speed buttons (line 470); `progressInterval` (`none` is `null`), and on the
browser's side the intervals that are live and the next interval id. -/
structure AudioState where
  currentVolume : ℚ := 1
  gainNode : Option ℚ := none
  audioVolume : ℚ := 1
  volumePct : ℚ := 50
  isPlaying : Bool := false
  currentSpeed : ℚ := 1
  playbackRate : ℚ := 1
  speedActive : List Bool := speedValues.map (fun v => decide (v = 1))
  progressInterval : Option Nat := none
  timers : List Nat := []
  nextTimer : Nat := 1
deriving DecidableEq, Repr

/-- Lines 604–614: `applyVolume()`. -/
def applyVolume (a : AudioState) : AudioState :=
  let a1 :=
    match a.gainNode with
    | some _ => { a with gainNode := some a.currentVolume }
    | none => { a with audioVolume := Min.min 1 (Min.min 1 a.currentVolume) }
  { a1 with volumePct := roundDouble (roundDouble (a1.currentVolume / 2) * 100) }

/-- Lines 616–619: click on the volume-down button:
`Math.max(0, +(currentVolume - 0.2).toFixed(2))`. -/
def volDownClick (a : AudioState) : AudioState :=
  applyVolume
    { a with
      currentVolume :=
        Max.max 0 (roundDouble (toFixed2 (roundDouble (a.currentVolume - step02)))) }

/-- Lines 621–624: click on the volume-up button:
`Math.min(2, +(currentVolume + 0.2).toFixed(2))`. -/
def volUpClick (a : AudioState) : AudioState :=
  applyVolume
    { a with
      currentVolume :=
        Min.min 2 (roundDouble (toFixed2 (roundDouble (a.currentVolume + step02)))) }

/-- Lines 627–632: click on the volume bar at the fraction
`pct = (e.clientX - rect.left) / rect.width` of its width, a finite number (a
bar without width takes no click); the product `pct * 2` is rounded. -/
def volBarClick (a : AudioState) (pct : ℚ) : AudioState :=
  applyVolume { a with currentVolume := Max.max 0 (Min.min 2 (roundDouble (pct * 2))) }

/-- The three ways to change the volume. -/
inductive VolumeClick where
  | down
  | up
  | bar (pct : ℚ)
deriving DecidableEq, Repr

/-- One volume click. -/
def volumeStep (a : AudioState) : VolumeClick → AudioState
  | VolumeClick.down => volDownClick a
  | VolumeClick.up => volUpClick a
  | VolumeClick.bar pct => volBarClick a pct

/-- Any finite sequence of volume clicks. -/
def volumeRun (a : AudioState) (clicks : List VolumeClick) : AudioState :=
  clicks.foldl volumeStep a

/-- Lines 486–490 and 652: the player as built, volume at the default 1. -/
def audioInit : AudioState :=
  applyVolume {}

/-! ## Audio control surface: speed, playback, progress polling
(lines 466–474, 508–538, 554–601, 641–651)

The calls `audio.play()` and `audio.pause()` are requests to the media element;
what the element reports back (`play`, `pause`, `ended`) enters as events. -/

/-- Lines 508–511: `startProgressPolling()`: clear the interval held, if any,
then set a new one. -/
def startProgressPolling (a : AudioState) : AudioState :=
  let a1 :=
    match a.progressInterval with
    | some t => { a with timers := a.timers.erase t }
    | none => a
  { a1 with
    progressInterval := some a1.nextTimer
    timers := a1.timers ++ [a1.nextTimer]
    nextTimer := a1.nextTimer + 1 }

/-- Lines 513–515: `stopProgressPolling()`. -/
def stopProgressPolling (a : AudioState) : AudioState :=
  match a.progressInterval with
  | some t => { a with timers := a.timers.erase t, progressInterval := none }
  | none => a

/-- Lines 517–524: the `ended` listener of the media element. -/
def mediaEnded (a : AudioState) : AudioState :=
  stopProgressPolling { a with isPlaying := false }

/-- Lines 527–532: the `play` listener of the media element. -/
def mediaPlay (a : AudioState) : AudioState :=
  startProgressPolling { a with isPlaying := true }

/-- Lines 533–538: the `pause` listener of the media element. -/
def mediaPause (a : AudioState) : AudioState :=
  stopProgressPolling { a with isPlaying := false }

/-- Lines 554–582: the click handler of the play/pause button, from line 559
on; `webAudio` tells whether the WebAudio graph can be built (lines 555–567).
The handler is `async`: when the audio context is suspended it waits at line
558 for `audioCtx.resume()`, having touched only `audioCtx`, and runs the rest
later.  The event `playClick` stands for the moment that rest runs, which is the
click itself when there is nothing to wait for. -/
def playClick (a : AudioState) (webAudio : Bool) : AudioState :=
  let a1 :=
    if webAudio = true ∧ a.gainNode = none then { a with gainNode := some a.currentVolume }
    else a
  if a1.isPlaying = true then stopProgressPolling { a1 with isPlaying := false }
  else startProgressPolling { a1 with isPlaying := true }

/-- Lines 594–601: click on the stop button. -/
def stopClick (a : AudioState) : AudioState :=
  stopProgressPolling { a with isPlaying := false }

/-- Lines 641–649: click on speed button `i`: set the rate, drop `active`
from every speed button, put it on the clicked one. -/
def speedClick (a : AudioState) (i : Fin 5) : AudioState :=
  match speedValues[i.val]? with
  | none => a
  | some speed =>
    { a with
      playbackRate := speed
      currentSpeed := speed
      speedActive := (a.speedActive.map (fun _ => false)).set i.val true }

/-- What can happen to an open audio player. -/
inductive AudioEvent where
  | playClick (webAudio : Bool)
  | stopClick
  | mediaPlay
  | mediaPause
  | mediaEnded
  | volume (c : VolumeClick)
  | speedClick (i : Fin 5)
deriving DecidableEq, Repr

/-- One event on the audio player. -/
def audioStep (a : AudioState) : AudioEvent → AudioState
  | AudioEvent.playClick webAudio => playClick a webAudio
  | AudioEvent.stopClick => stopClick a
  | AudioEvent.mediaPlay => mediaPlay a
  | AudioEvent.mediaPause => mediaPause a
  | AudioEvent.mediaEnded => mediaEnded a
  | AudioEvent.volume c => volumeStep a c
  | AudioEvent.speedClick i => speedClick a i

/-- Any finite sequence of events on the audio player. -/
def audioRun (a : AudioState) (events : List AudioEvent) : AudioState :=
  events.foldl audioStep a

/-- The page while an audio file is shown: the navigation state and the
player's own closure, which `closeFileView` cannot reach. -/
structure Session where
  nav : State
  audio : AudioState
deriving DecidableEq, Repr

/-- Events of a session: those of the player, and closing the viewer. -/
inductive SessionEvent where
  | audio (e : AudioEvent)
  | closeView
deriving DecidableEq, Repr

/-- One event of a session; closing runs `closeFileView` (lines 720–730),
which touches nothing of the player's closure. -/
def sessionStep (s : Session) : SessionEvent → Session
  | SessionEvent.audio e => { s with audio := audioStep s.audio e }
  | SessionEvent.closeView => { s with nav := closeFileView s.nav }

/-- Any finite sequence of session events. -/
def sessionRun (s : Session) (events : List SessionEvent) : Session :=
  events.foldl sessionStep s

/-- The session right after `openFileViewer` built the player for `x.mp3`. -/
def demoSession : Session :=
  { nav := openFileViewer
      { menuData :=
          { items := [{ label := "Back", type := some "return" }, { label := "x.mp3" }]
            variant := some "scroll"
            filetype := some "audio"
            folder := some "mp3" }
        selected := 1 }
      "x.mp3" "audio"
    audio := audioInit }

/-! ## Derived notions used in the statements -/

/-- The volume of `h` hundredths: the double nearest to `h / 100`. -/
def hundredths (h : Nat) : ℚ := roundDouble ((h : ℚ) / 100)

/-- The `active` flags with button `i` alone active. -/
def onlyActive (i : Fin 5) : List Bool :=
  (List.range 5).map (fun j => decide (j = i.val))

/-- Number of speed buttons carrying `active`. -/
def activeCount (a : AudioState) : Nat :=
  a.speedActive.count true

/-- The arrow-right step of the design on a grid of `total` buttons. -/
def focusRight (total f : Int) : Int := (f + 1) % total

/-- The arrow-left step of the design on a grid of `total` buttons. -/
def focusLeft (total f : Int) : Int := (f - 1) % total

/-- The distance classes, the ones `updateHighlight` manages. -/
def isDistanceTag : Cls → Bool
  | Cls.highlight => true
  | Cls.dim _ => true
  | _ => false

/-- The distance classes an element carries. -/
def distanceTags (el : Element) : List Cls :=
  el.classes.filter isDistanceTag

/-- The distance classes due at distance `d` from the selection. -/
def expectedTags (d : Nat) : List Cls :=
  if d = 0 then [Cls.highlight] else if d ≤ 4 then [Cls.dim d] else []

/-- Number of sound cues in a trace. -/
def cueCount (es : List Effect) : Nat :=
  (es.filter (fun e => match e with | Effect.playSound _ _ => true | _ => false)).length

/-- Number of re-renders in a trace. -/
def renderCount (es : List Effect) : Nat :=
  es.count Effect.render

/-- The navigation invariant of the data model: the descriptor has items and
`selected` indexes one of them. -/
def SelectedInRange (st : State) : Prop :=
  st.menuData.items ≠ [] ∧ 0 ≤ st.selected ∧ st.selected < (st.menuData.items.length : Int)

instance (st : State) : Decidable (SelectedInRange st) := by
  unfold SelectedInRange; infer_instance

/-- Every rendered element carries exactly the distance classes due at its
distance from `selected`; an empty placeholder never carries `highlight`. -/
def TagsByDistance (st : State) : Prop :=
  ∀ el ∈ st.menuRoot,
    distanceTags el = expectedTags (el.index - st.selected).natAbs ∧
    (Cls.empty ∈ el.classes → Cls.highlight ∉ el.classes)

/-- The indices of the elements a render is due to produce, in order: every
item position in the locked variant, the nine slots around `selected` in the
scroll variant. -/
def renderedIndices (d : MenuData) (selected : Int) : List Int :=
  if d.variant = some "locked" then
    List.map (fun i : Nat => (i : Int)) (List.range d.items.length)
  else List.map (fun s : Nat => selected + ((s : Int) - 4)) (List.range 9)

/-- The list is rendered and tagged: its elements are exactly the due ones, in
order; each carries the distance classes due at its distance; an element is an
empty placeholder exactly when its index is outside the items; and the element
of the selected item is there, carrying `highlight` alone. -/
def RenderedAndTagged (st : State) : Prop :=
  st.menuRoot.map Element.index = renderedIndices st.menuData st.selected ∧
  TagsByDistance st ∧
  (∀ el ∈ st.menuRoot,
    (Cls.empty ∈ el.classes ↔
      (el.index < 0 ∨ (st.menuData.items.length : Int) ≤ el.index))) ∧
  (∃ el ∈ st.menuRoot, el.index = st.selected ∧ distanceTags el = [Cls.highlight])

/-- The target of a `return` item in the words of the design: the item's own
target if present, else the descriptor's `return` if present, else the home
page. -/
def returnTargetOf (item : MenuItem) (d : MenuData) : String :=
  match item.target with
  | some t => if t ≠ "" then t else
      match d.return_ with
      | some r => if r ≠ "" then r else "index.html"
      | none => "index.html"
  | none =>
      match d.return_ with
      | some r => if r ≠ "" then r else "index.html"
      | none => "index.html"

/-- The condition of the design under which Enter opens the file viewer: the
item is not of type `return` or `menu`, has no target ending in `'.json'`, and
the descriptor has variant `scroll` and declares a file type. -/
def OpensViewer (d : MenuData) (item : MenuItem) : Prop :=
  item.type ≠ some "return" ∧ item.type ≠ some "menu" ∧
  (∀ t, item.target = some t → endsWith t ".json" = false) ∧
  d.variant = some "scroll" ∧ truthy d.filetype = true

/-- The scenario descriptor of the design: a return entry and one text file. -/
def demoMenu : MenuData :=
  { items := [{ label := "Back", type := some "return" }, { label := "a.txt" }]
    variant := some "scroll"
    filetype := some "text"
    return_ := some "index.html" }

/-- An autoload descriptor declaring only its return entry. -/
def demoAutoload : MenuData :=
  { items := [{ label := "Back", type := some "return" }]
    variant := some "scroll"
    filetype := some "audio"
    return_ := some "db/db.json"
    autoload := true
    folder := some "mp3" }

/-- An event that brings a descriptor brings one with items. -/
def Event.WellFormed : Event → Prop
  | Event.menuResolved d => d.items ≠ []
  | _ => True

/-! ## Lemmas on the helpers -/

theorem orStr_some_empty (s : String) : orStr (some s) "" = s := by
  unfold orStr
  by_cases h : s = "" <;> simp [h]

theorem mem_classAdd (cl : List Cls) (c x : Cls) :
    x ∈ classAdd cl c ↔ x ∈ cl ∨ x = c := by
  unfold classAdd
  split
  · constructor
    · intro h; exact Or.inl h
    · rintro (h | h)
      · exact h
      · subst h; assumption
  · simp

theorem centerOffset_eq : (centerOffset : Int) = 4 := by
  decide

theorem renderScroll_menuRoot (st : State) (items : List MenuItem) :
    (renderScroll st items).menuRoot = (List.range 9).map (scrollSlot items st.selected) := by
  simp [renderScroll, clearMenu, slots]

theorem scrollSlot_index (items : List MenuItem) (selected : Int) (s : Nat) :
    (scrollSlot items selected s).index = selected + ((s : Int) - 4) := by
  unfold scrollSlot
  simp only [centerOffset_eq]
  split <;> rfl

theorem scrollSlot_empty_iff (items : List MenuItem) (selected : Int) (s : Nat) :
    Cls.empty ∈ (scrollSlot items selected s).classes ↔
      (selected + ((s : Int) - 4) < 0 ∨ (items.length : Int) ≤ selected + ((s : Int) - 4)) := by
  unfold scrollSlot
  simp only [centerOffset_eq]
  split
  · rename_i h
    constructor
    · intro _; exact h
    · intro _
      dsimp only
      split
      · rw [mem_classAdd]; left; simp
      · simp
  · rename_i h
    constructor
    · intro hm
      exfalso
      dsimp only at hm
      split at hm
      · rw [mem_classAdd] at hm; simp at hm
      · split at hm
        · rw [mem_classAdd] at hm; simp at hm
        · simp at hm
    · intro h2; exact absurd h2 h

theorem scrollSlot_label_empty (items : List MenuItem) (selected : Int) (s : Nat)
    (h : selected + ((s : Int) - 4) < 0 ∨ (items.length : Int) ≤ selected + ((s : Int) - 4)) :
    (scrollSlot items selected s).label = none := by
  unfold scrollSlot
  simp only [centerOffset_eq]
  have h2 : selected + ((s : Int) - 4) < 0 ∨ selected + ((s : Int) - 4) ≥ (items.length : Int) := h
  rw [if_pos h2]

theorem scrollSlot_label_item (items : List MenuItem) (selected : Int) (s i : Nat)
    (hi : selected + ((s : Int) - 4) = (i : Int)) (it : MenuItem) (hit : items[i]? = some it) :
    (scrollSlot items selected s).label = some it.label := by
  have hlt : i < items.length := by
    rcases Nat.lt_or_ge i items.length with h | h
    · exact h
    · rw [List.getElem?_eq_none h] at hit; cases hit
  unfold scrollSlot
  simp only [centerOffset_eq]
  have hn : ¬ (selected + ((s : Int) - 4) < 0 ∨
      selected + ((s : Int) - 4) ≥ (items.length : Int)) := by
    omega
  rw [if_neg hn, hi]
  simp [jsIndex, hit, orStr_some_empty]

/-! ## The nine slots of the scroll layout -/

/-- C1: for an item list of length n ≥ 1 and `selected` in [0, n),
`renderScroll` produces exactly 9 slots; slot s carries item index
`selected + (s - 4)`, so slot 4 carries `selected` and is not a placeholder; a
slot is an empty placeholder exactly when its index is outside [0, n), and then
has no label; otherwise it shows the label of `items[index]` itself. -/
theorem renderScroll_nine_slots (st : State) (items : List MenuItem)
    (h0 : 0 ≤ st.selected) (h1 : st.selected < (items.length : Int)) :
    (renderScroll st items).menuRoot.length = 9 ∧
    ∀ s : Nat, s ≤ 8 →
      ∃ el, (renderScroll st items).menuRoot[s]? = some el ∧
        el.index = st.selected + ((s : Int) - 4) ∧
        (s = 4 → el.index = st.selected ∧ Cls.empty ∉ el.classes) ∧
        (Cls.empty ∈ el.classes ↔ (el.index < 0 ∨ (items.length : Int) ≤ el.index)) ∧
        (el.index < 0 ∨ (items.length : Int) ≤ el.index → el.label = none) ∧
        (∀ i : Nat, el.index = (i : Int) → ∀ it, items[i]? = some it →
          el.label = some it.label) := by
  rw [renderScroll_menuRoot]
  refine ⟨by simp, ?_⟩
  intro s hs
  refine ⟨scrollSlot items st.selected s, ?_, scrollSlot_index _ _ _, ?_, ?_, ?_, ?_⟩
  · rw [List.getElem?_map, List.getElem?_range (by omega)]
    rfl
  · intro h4
    subst h4
    refine ⟨by rw [scrollSlot_index]; simp, ?_⟩
    rw [scrollSlot_empty_iff]
    push_cast
    omega
  · rw [scrollSlot_index]
    exact scrollSlot_empty_iff _ _ _
  · rw [scrollSlot_index]
    exact scrollSlot_label_empty _ _ _
  · intro i hi it hit
    rw [scrollSlot_index] at hi
    exact scrollSlot_label_item _ _ _ _ hi it hit

/-- C1, at a concrete menu: two items, the second selected. -/
theorem renderScroll_nine_slots_witness :
    (renderScroll { menuData := demoMenu, selected := 1 } demoMenu.items).menuRoot.length = 9 :=
  (renderScroll_nine_slots { menuData := demoMenu, selected := 1 } demoMenu.items
    (by decide) (by decide)).1

/-! ## Frame lemmas: what rendering and refreshing leave alone -/

@[simp] theorem renderCurrent_menuData (st : State) :
    (renderCurrent st).menuData = st.menuData := by
  unfold renderCurrent; split <;> rfl

@[simp] theorem renderCurrent_selected (st : State) :
    (renderCurrent st).selected = st.selected := by
  unfold renderCurrent; split <;> rfl

@[simp] theorem renderCurrent_mode (st : State) :
    (renderCurrent st).mode = st.mode := by
  unfold renderCurrent; split <;> rfl

@[simp] theorem renderCurrent_effects (st : State) :
    (renderCurrent st).effects = st.effects ++ [Effect.render] := by
  unfold renderCurrent; split <;> rfl

@[simp] theorem refresh_menuData (st : State) : (refresh st).menuData = st.menuData := by
  unfold refresh; split <;> simp

@[simp] theorem refresh_selected (st : State) : (refresh st).selected = st.selected := by
  unfold refresh; split <;> simp

@[simp] theorem refresh_mode (st : State) : (refresh st).mode = st.mode := by
  unfold refresh; split <;> simp

theorem refresh_effects (st : State) :
    (refresh st).effects = st.effects ++
      [if wantsAutoload st.menuData then Effect.fetchManifest (manifestPath st.menuData)
       else Effect.render] := by
  unfold refresh; split <;> simp

@[simp] theorem openFileViewer_menuData (st : State) (l f : String) :
    (openFileViewer st l f).menuData = st.menuData := by
  unfold openFileViewer; dsimp only; split_ifs <;> rfl

@[simp] theorem openFileViewer_selected (st : State) (l f : String) :
    (openFileViewer st l f).selected = st.selected := by
  unfold openFileViewer; dsimp only; split_ifs <;> rfl

@[simp] theorem openFileViewer_mode (st : State) (l f : String) :
    (openFileViewer st l f).mode = Mode.file := by
  unfold openFileViewer; dsimp only; split_ifs <;> rfl

@[simp] theorem openFileViewer_fileHeader (st : State) (l f : String) :
    (openFileViewer st l f).fileHeader = l := by
  unfold openFileViewer; dsimp only; split_ifs <;> rfl

theorem enterKey_menuData (st : State) : (enterKey st).menuData = st.menuData := by
  unfold enterKey playSound
  dsimp only
  repeat (first | rfl | simp only [openFileViewer_menuData] | split)

theorem enterKey_selected (st : State) : (enterKey st).selected = st.selected := by
  unfold enterKey playSound
  dsimp only
  repeat (first | rfl | simp only [openFileViewer_selected] | split)

theorem backspaceKey_menuData (st : State) : (backspaceKey st).menuData = st.menuData := by
  unfold backspaceKey playSound; dsimp only; split <;> rfl

theorem backspaceKey_selected (st : State) : (backspaceKey st).selected = st.selected := by
  unfold backspaceKey playSound; dsimp only; split <;> rfl

theorem backspaceKey_mode (st : State) : (backspaceKey st).mode = st.mode := by
  unfold backspaceKey playSound; dsimp only; split <;> rfl

theorem audioKey_menuData (st : State) (t : Int) (key : String) :
    (audioKey st t key).menuData = st.menuData := by
  unfold audioKey closeFileView playSound
  dsimp only
  repeat (first | rfl | split)

theorem audioKey_selected (st : State) (t : Int) (key : String) :
    (audioKey st t key).selected = st.selected := by
  unfold audioKey closeFileView playSound
  dsimp only
  repeat (first | rfl | split)

theorem scrollKey_menuData (st : State) (key : String) :
    (scrollKey st key).menuData = st.menuData := by
  unfold scrollKey closeFileView playSound
  dsimp only
  repeat (first | rfl | split)

theorem scrollKey_selected (st : State) (key : String) :
    (scrollKey st key).selected = st.selected := by
  unfold scrollKey closeFileView playSound
  dsimp only
  repeat (first | rfl | split)

/-! ## The selection invariant -/

theorem clamp_in_range (x n : Int) (hn : 1 ≤ n) :
    0 ≤ clamp x 0 (n - 1) ∧ clamp x 0 (n - 1) < n := by
  unfold clamp
  omega

theorem items_length_pos {st : State} (h : st.menuData.items ≠ []) :
    (1 : Int) ≤ (st.menuData.items.length : Int) := by
  have : 0 < st.menuData.items.length := List.length_pos.mpr h
  omega

theorem keyHandler_menuData (st : State) (key : String) :
    (keyHandler st key).menuData = st.menuData := by
  unfold keyHandler
  dsimp only
  split
  · split
    · exact audioKey_menuData _ _ _
    · exact scrollKey_menuData _ _
  · split
    · split
      · simp [playSound]
      · rfl
    · split
      · split
        · simp [playSound]
        · rfl
      · split
        · exact enterKey_menuData _
        · split
          · exact backspaceKey_menuData _
          · rfl

theorem keyHandler_file_selected (st : State) (key : String) (hmode : st.mode = Mode.file) :
    (keyHandler st key).selected = st.selected := by
  unfold keyHandler
  dsimp only
  rw [if_pos hmode]
  split
  · exact audioKey_selected _ _ _
  · exact scrollKey_selected _ _

theorem keyHandler_preserves (st : State) (key : String) (h : SelectedInRange st) :
    SelectedInRange (keyHandler st key) := by
  obtain ⟨hne, h0, h1⟩ := h
  have hlen := items_length_pos hne
  refine ⟨by rw [keyHandler_menuData]; exact hne, ?_⟩
  rw [keyHandler_menuData]
  by_cases hmode : st.mode = Mode.file
  · rw [keyHandler_file_selected st key hmode]; exact ⟨h0, h1⟩
  · unfold keyHandler
    dsimp only
    rw [if_neg hmode]
    have hc1 := clamp_in_range (st.selected + 1) _ hlen
    have hc2 := clamp_in_range (st.selected - 1) _ hlen
    split
    · split
      · simpa [playSound] using hc1
      · exact ⟨h0, h1⟩
    · split
      · split
        · simpa [playSound] using hc2
        · exact ⟨h0, h1⟩
      · split
        · rw [enterKey_selected]; exact ⟨h0, h1⟩
        · split
          · rw [backspaceKey_selected]; exact ⟨h0, h1⟩
          · exact ⟨h0, h1⟩

theorem mergeItems_length (items : List MenuItem) (files : List String) (h : items ≠ []) :
    (mergeItems items files).length = 1 + files.length := by
  cases items with
  | nil => exact absurd rfl h
  | cons a l => simp [mergeItems]; omega

theorem manifestResolved_preserves (st : State) (files : List String)
    (h : SelectedInRange st) : SelectedInRange (manifestResolved st files) := by
  obtain ⟨hne, h0, h1⟩ := h
  have hl := mergeItems_length st.menuData.items files hne
  unfold SelectedInRange manifestResolved
  simp only [renderCurrent_menuData, renderCurrent_selected]
  refine ⟨?_, ?_, ?_⟩
  · intro hnil
    rw [hnil] at hl
    simp at hl
    omega
  · rw [hl]; omega
  · rw [hl]; omega

theorem menuResolved_preserves (st : State) (d : MenuData) (hd : d.items ≠ []) :
    SelectedInRange (menuResolved st d) := by
  unfold SelectedInRange menuResolved
  simp only [refresh_menuData, refresh_selected]
  refine ⟨hd, le_refl _, ?_⟩
  have : 0 < d.items.length := List.length_pos.mpr hd
  omega

theorem step_preserves (st : State) (e : Event) (h : SelectedInRange st)
    (he : e.WellFormed) : SelectedInRange (step st e) := by
  cases e with
  | keydown key => exact keyHandler_preserves st key h
  | menuResolved d => exact menuResolved_preserves st d he
  | menuRejected origin =>
    cases origin <;> exact h
  | manifestResolved files => exact manifestResolved_preserves st files h
  | manifestRejected =>
    unfold step manifestRejected SelectedInRange
    simpa using h
  | fileResolved filetype text => exact h
  | fileRejected message => exact h

theorem run_preserves (events : List Event) (st : State) (h : SelectedInRange st)
    (he : ∀ e ∈ events, e.WellFormed) : SelectedInRange (run st events) := by
  induction events generalizing st with
  | nil => exact h
  | cons e es ih =>
    unfold run
    rw [List.foldl_cons]
    apply ih
    · exact step_preserves st e h (he e (List.mem_cons_self _ _))
    · intro e2 he2
      exact he e2 (List.mem_cons_of_mem _ he2)

theorem startMenu_in_range (data : MenuData) (h : data.items ≠ []) :
    SelectedInRange (startMenu data) := by
  unfold SelectedInRange startMenu
  simp only [refresh_menuData, refresh_selected]
  refine ⟨h, le_refl _, ?_⟩
  have : 0 < data.items.length := List.length_pos.mpr h
  omega

theorem keyHandler_move_selected (st : State) (hmode : st.mode = Mode.menu) :
    (∀ key, key = "ArrowDown" ∨ key = "s" →
      (keyHandler st key).selected =
        clamp (st.selected + 1) 0 ((st.menuData.items.length : Int) - 1)) ∧
    (∀ key, key = "ArrowUp" ∨ key = "w" →
      (keyHandler st key).selected =
        clamp (st.selected - 1) 0 ((st.menuData.items.length : Int) - 1)) := by
  have hm : ¬ st.mode = Mode.file := by rw [hmode]; decide
  constructor
  · intro key hk
    unfold keyHandler
    dsimp only
    rw [if_neg hm, if_pos hk]
    split
    · simp [playSound]
    · rename_i hne
      exact (not_not.mp hne).symm
  · intro key hk
    have hnd : ¬ (key = "ArrowDown" ∨ key = "s") := by
      rcases hk with h | h <;> subst h <;> decide
    unfold keyHandler
    dsimp only
    rw [if_neg hm, if_neg hnd, if_pos hk]
    split
    · simp [playSound]
    · rename_i hne
      exact (not_not.mp hne).symm

/-- C2: `0 ≤ selected < items.length` is an invariant of the navigation state
machine when every loaded descriptor has items: it holds once the entry
descriptor has loaded, every turn of the event loop preserves it (keys in either
mode, descriptor replacement after Enter or Backspace, the autoload merge, a
failed request, opening and closing the viewer), so it holds after every run;
and a move sets `selected` to `clamp(selected ± 1, 0, n - 1)`, which under the
invariant is the old value or its neighbour, never the other end. -/
theorem selected_in_range_invariant (data : MenuData) (hdata : data.items ≠ []) :
    SelectedInRange (startMenu data) ∧
    (∀ st e, SelectedInRange st → Event.WellFormed e → SelectedInRange (step st e)) ∧
    (∀ events : List Event, (∀ e ∈ events, Event.WellFormed e) →
      SelectedInRange (run (startMenu data) events)) ∧
    (∀ st l f, SelectedInRange st →
      SelectedInRange (openFileViewer st l f) ∧ SelectedInRange (closeFileView st)) ∧
    (∀ st, st.mode = Mode.menu →
      (∀ key, key = "ArrowDown" ∨ key = "s" →
        (keyHandler st key).selected =
          clamp (st.selected + 1) 0 ((st.menuData.items.length : Int) - 1)) ∧
      (∀ key, key = "ArrowUp" ∨ key = "w" →
        (keyHandler st key).selected =
          clamp (st.selected - 1) 0 ((st.menuData.items.length : Int) - 1))) ∧
    (∀ st, SelectedInRange st →
      (st.selected ≤ clamp (st.selected + 1) 0 ((st.menuData.items.length : Int) - 1) ∧
        clamp (st.selected + 1) 0 ((st.menuData.items.length : Int) - 1) ≤ st.selected + 1) ∧
      (st.selected - 1 ≤ clamp (st.selected - 1) 0 ((st.menuData.items.length : Int) - 1) ∧
        clamp (st.selected - 1) 0 ((st.menuData.items.length : Int) - 1) ≤ st.selected)) := by
  refine ⟨startMenu_in_range data hdata, step_preserves, ?_, ?_, keyHandler_move_selected, ?_⟩
  · intro events he
    exact run_preserves events _ (startMenu_in_range data hdata) he
  · intro st l f h
    refine ⟨?_, h⟩
    unfold SelectedInRange
    simpa using h
  · intro st h
    obtain ⟨_, h0, h1⟩ := h
    unfold clamp
    omega

/-- C2, at the scenario descriptor. -/
theorem selected_in_range_invariant_witness :
    SelectedInRange (startMenu demoMenu) :=
  (selected_in_range_invariant demoMenu (by decide)).1

/-! ## Selection movement -/

theorem keyHandler_down (st : State) (key : String) (hmode : st.mode = Mode.menu)
    (hk : key = "ArrowDown" ∨ key = "s") :
    keyHandler st key =
      if clamp (st.selected + 1) 0 ((st.menuData.items.length : Int) - 1) ≠ st.selected then
        refresh (playSound
          { st with selected := clamp (st.selected + 1) 0 ((st.menuData.items.length : Int) - 1) }
          "assets/sounds/beep.mp3" "beep")
      else st := by
  have hm : ¬ st.mode = Mode.file := by rw [hmode]; decide
  unfold keyHandler
  dsimp only
  rw [if_neg hm, if_pos hk]

theorem keyHandler_up (st : State) (key : String) (hmode : st.mode = Mode.menu)
    (hk : key = "ArrowUp" ∨ key = "w") :
    keyHandler st key =
      if clamp (st.selected - 1) 0 ((st.menuData.items.length : Int) - 1) ≠ st.selected then
        refresh (playSound
          { st with selected := clamp (st.selected - 1) 0 ((st.menuData.items.length : Int) - 1) }
          "assets/sounds/beep.mp3" "beep")
      else st := by
  have hm : ¬ st.mode = Mode.file := by rw [hmode]; decide
  have hnd : ¬ (key = "ArrowDown" ∨ key = "s") := by
    rcases hk with h | h <;> subst h <;> decide
  unfold keyHandler
  dsimp only
  rw [if_neg hm, if_neg hnd, if_pos hk]

/-- C3: in menu mode with n ≥ 1 items and `selected` in range, move-up at
`selected = 0` and move-down at `selected = n - 1` return the state as it was
(no change of `selected`, no sound cue, no re-render); at every other position
the move changes `selected` by exactly one and emits exactly the move cue
followed by one refresh, which is one re-render: at once, or, for an autoload
descriptor, when the manifest request it issues completes (either callback
renders once and plays no cue). -/
theorem move_boundary_noop_else_one_step (st : State) (hmode : st.mode = Mode.menu)
    (h : SelectedInRange st) :
    (st.selected = 0 → ∀ key, key = "ArrowUp" ∨ key = "w" → keyHandler st key = st) ∧
    (st.selected = (st.menuData.items.length : Int) - 1 →
      ∀ key, key = "ArrowDown" ∨ key = "s" → keyHandler st key = st) ∧
    (st.selected ≠ 0 → ∀ key, key = "ArrowUp" ∨ key = "w" →
      (keyHandler st key).selected = st.selected - 1 ∧
      (keyHandler st key).effects = st.effects ++
        [Effect.playSound "assets/sounds/beep.mp3" "beep",
         if wantsAutoload st.menuData then Effect.fetchManifest (manifestPath st.menuData)
         else Effect.render]) ∧
    (st.selected ≠ (st.menuData.items.length : Int) - 1 →
      ∀ key, key = "ArrowDown" ∨ key = "s" →
      (keyHandler st key).selected = st.selected + 1 ∧
      (keyHandler st key).effects = st.effects ++
        [Effect.playSound "assets/sounds/beep.mp3" "beep",
         if wantsAutoload st.menuData then Effect.fetchManifest (manifestPath st.menuData)
         else Effect.render]) ∧
    (∀ (s : State) (files : List String),
      (manifestResolved s files).effects = s.effects ++ [Effect.render]) ∧
    (∀ s : State,
      (manifestRejected s).effects = s.effects ++ [Effect.log "Autoload failed:", Effect.render]) := by
  obtain ⟨_, h0, h1⟩ := h
  refine ⟨?_, ?_, ?_, ?_, ?_, ?_⟩
  · intro hs key hk
    rw [keyHandler_up st key hmode hk]
    have : clamp (st.selected - 1) 0 ((st.menuData.items.length : Int) - 1) = st.selected := by
      unfold clamp; omega
    simp [this]
  · intro hs key hk
    rw [keyHandler_down st key hmode hk]
    have : clamp (st.selected + 1) 0 ((st.menuData.items.length : Int) - 1) = st.selected := by
      unfold clamp; omega
    simp [this]
  · intro hs key hk
    rw [keyHandler_up st key hmode hk]
    have hc : clamp (st.selected - 1) 0 ((st.menuData.items.length : Int) - 1)
        = st.selected - 1 := by
      unfold clamp; omega
    have hne : st.selected - 1 ≠ st.selected := by omega
    rw [hc, if_pos hne]
    refine ⟨by simp [playSound], ?_⟩
    rw [refresh_effects]
    simp [playSound]
  · intro hs key hk
    rw [keyHandler_down st key hmode hk]
    have hc : clamp (st.selected + 1) 0 ((st.menuData.items.length : Int) - 1)
        = st.selected + 1 := by
      unfold clamp; omega
    have hne : st.selected + 1 ≠ st.selected := by omega
    rw [hc, if_pos hne]
    refine ⟨by simp [playSound], ?_⟩
    rw [refresh_effects]
    simp [playSound]
  · intro s files
    simp [manifestResolved]
  · intro s
    simp [manifestRejected]

/-- C3, at the scenario descriptor with the first item selected. -/
theorem move_boundary_noop_else_one_step_witness :
    keyHandler { menuData := demoMenu } "ArrowUp" = { menuData := demoMenu } :=
  (move_boundary_noop_else_one_step { menuData := demoMenu } rfl (by decide)).1 rfl
    "ArrowUp" (Or.inl rfl)

/-! ## Distance classes -/

/-- The only distance classes on the element are among the five that
`updateHighlight` removes. -/
theorem tags_removed (cl : List Cls)
    (h : ∀ c ∈ cl, isDistanceTag c = true →
      c ∈ [Cls.highlight, Cls.dim 1, Cls.dim 2, Cls.dim 3, Cls.dim 4]) :
    (classRemove cl [Cls.highlight, Cls.dim 1, Cls.dim 2, Cls.dim 3, Cls.dim 4]).filter
      isDistanceTag = [] := by
  unfold classRemove
  rw [List.filter_filter, List.filter_eq_nil_iff]
  intro c hc
  by_cases ht : isDistanceTag c = true
  · have := h c hc ht
    simp [this]
  · simp [ht]

theorem filter_classAdd_tag (cl : List Cls) (c : Cls) (hc : isDistanceTag c = true)
    (h : cl.filter isDistanceTag = []) :
    (classAdd cl c).filter isDistanceTag = [c] := by
  have hnot : c ∉ cl := by
    intro hm
    have : c ∈ cl.filter isDistanceTag := List.mem_filter.mpr ⟨hm, hc⟩
    rw [h] at this
    cases this
  unfold classAdd
  rw [if_neg hnot, List.filter_append, h]
  simp [hc]

theorem distanceTags_updateHighlightEl (selected : Int) (el : Element)
    (h : ∀ c ∈ el.classes, isDistanceTag c = true →
      c ∈ [Cls.highlight, Cls.dim 1, Cls.dim 2, Cls.dim 3, Cls.dim 4]) :
    distanceTags (updateHighlightEl selected el) =
      expectedTags (el.index - selected).natAbs := by
  have hr := tags_removed el.classes h
  unfold updateHighlightEl distanceTags expectedTags
  dsimp only
  by_cases heq : el.index = selected
  · rw [if_pos heq]
    have hd : (el.index - selected).natAbs = 0 := by omega
    rw [if_pos hd]
    exact filter_classAdd_tag _ _ rfl hr
  · rw [if_neg heq]
    have hd : ¬ (el.index - selected).natAbs = 0 := by omega
    rw [if_neg hd]
    by_cases hr2 : 1 ≤ (el.index - selected).natAbs ∧ (el.index - selected).natAbs ≤ 4
    · rw [if_pos hr2, if_pos hr2.2]
      exact filter_classAdd_tag _ _ rfl hr
    · rw [if_neg hr2]
      have : ¬ (el.index - selected).natAbs ≤ 4 := by omega
      rw [if_neg this]
      exact hr

theorem updateHighlightEl_index (selected : Int) (el : Element) :
    (updateHighlightEl selected el).index = el.index := by
  unfold updateHighlightEl
  dsimp only
  split_ifs <;> rfl

theorem updateHighlightEl_empty (selected : Int) (el : Element) :
    Cls.empty ∈ (updateHighlightEl selected el).classes ↔ Cls.empty ∈ el.classes := by
  have hrem : Cls.empty ∈ classRemove el.classes
      [Cls.highlight, Cls.dim 1, Cls.dim 2, Cls.dim 3, Cls.dim 4] ↔ Cls.empty ∈ el.classes := by
    unfold classRemove
    simp
  unfold updateHighlightEl
  dsimp only
  split_ifs
  · rw [mem_classAdd, hrem]; simp
  · rw [mem_classAdd, hrem]; simp
  · exact hrem

/-- What `updateHighlightEl` leaves on an element keeps only the five classes. -/
theorem updateHighlightEl_clean (selected : Int) (el : Element)
    (h : ∀ c ∈ el.classes, isDistanceTag c = true →
      c ∈ [Cls.highlight, Cls.dim 1, Cls.dim 2, Cls.dim 3, Cls.dim 4]) :
    ∀ c ∈ (updateHighlightEl selected el).classes, isDistanceTag c = true →
      c ∈ [Cls.highlight, Cls.dim 1, Cls.dim 2, Cls.dim 3, Cls.dim 4] := by
  intro c hc ht
  have hmem : c ∈ distanceTags (updateHighlightEl selected el) :=
    List.mem_filter.mpr ⟨hc, ht⟩
  rw [distanceTags_updateHighlightEl selected el h] at hmem
  unfold expectedTags at hmem
  split_ifs at hmem with h0 h4
  · simp at hmem; simp [hmem]
  · simp at hmem
    subst hmem
    have : (el.index - selected).natAbs = 1 ∨ (el.index - selected).natAbs = 2 ∨
        (el.index - selected).natAbs = 3 ∨ (el.index - selected).natAbs = 4 := by omega
    rcases this with e | e | e | e <;> rw [e] <;> simp
  · cases hmem

theorem scrollSlot_clean (items : List MenuItem) (selected : Int) (s : Nat) :
    ∀ c ∈ (scrollSlot items selected s).classes, isDistanceTag c = true →
      c ∈ [Cls.highlight, Cls.dim 1, Cls.dim 2, Cls.dim 3, Cls.dim 4] := by
  intro c hc ht
  unfold scrollSlot at hc
  dsimp only at hc
  have key : ∀ d : Nat, 1 ≤ d → d ≤ 4 →
      Cls.dim d ∈ [Cls.highlight, Cls.dim 1, Cls.dim 2, Cls.dim 3, Cls.dim 4] := by
    intro d h1 h4
    have : d = 1 ∨ d = 2 ∨ d = 3 ∨ d = 4 := by omega
    rcases this with e | e | e | e <;> rw [e] <;> simp
  split_ifs at hc with h1 h2 h3 h4
  · rw [mem_classAdd] at hc
    rcases hc with hc | hc
    · simp at hc; rcases hc with hc | hc <;> subst hc <;> cases ht
    · subst hc; exact key _ h2.1 h2.2
  · simp at hc; rcases hc with hc | hc <;> subst hc <;> cases ht
  · rw [mem_classAdd] at hc
    rcases hc with hc | hc
    · simp at hc; subst hc; cases ht
    · subst hc; simp
  · rw [mem_classAdd] at hc
    rcases hc with hc | hc
    · simp at hc; subst hc; cases ht
    · subst hc; exact key _ (by omega) h4
  · simp at hc; subst hc; cases ht

theorem lockedElement_clean (it : MenuItem) (idx : Nat) :
    ∀ c ∈ (lockedElement it idx).classes, isDistanceTag c = true →
      c ∈ [Cls.highlight, Cls.dim 1, Cls.dim 2, Cls.dim 3, Cls.dim 4] := by
  intro c hc ht
  simp [lockedElement] at hc
  subst hc
  cases ht

/-- Every element of the rendered list is `updateHighlightEl` of an element
whose distance classes are among the five and which is an empty placeholder only
outside the item range. -/
theorem renderCurrent_elements (st : State) :
    ∀ el ∈ (renderCurrent st).menuRoot, ∃ el0 : Element,
      el = updateHighlightEl st.selected el0 ∧
      (∀ c ∈ el0.classes, isDistanceTag c = true →
        c ∈ [Cls.highlight, Cls.dim 1, Cls.dim 2, Cls.dim 3, Cls.dim 4]) ∧
      (Cls.empty ∈ el0.classes →
        el0.index < 0 ∨ (st.menuData.items.length : Int) ≤ el0.index) := by
  intro el hel
  unfold renderCurrent at hel
  split at hel
  · simp only [updateHighlight, renderLocked, clearMenu, List.nil_append, List.map_map,
      List.mem_map] at hel
    obtain ⟨p, _, hp⟩ := hel
    refine ⟨updateHighlightEl st.selected (lockedElement p.2 p.1), hp.symm, ?_, ?_⟩
    · exact updateHighlightEl_clean _ _ (lockedElement_clean _ _)
    · intro he
      rw [updateHighlightEl_empty] at he
      simp [lockedElement] at he
  · simp only [updateHighlight, renderScroll, clearMenu, List.nil_append, List.map_map,
      List.mem_map] at hel
    obtain ⟨s, _, hs⟩ := hel
    refine ⟨scrollSlot st.menuData.items st.selected s, hs.symm, scrollSlot_clean _ _ _, ?_⟩
    intro he
    rw [scrollSlot_index]
    exact (scrollSlot_empty_iff _ _ _).mp he

theorem renderCurrent_tags (st : State)
    (h0 : 0 ≤ st.selected) (h1 : st.selected < (st.menuData.items.length : Int)) :
    TagsByDistance (renderCurrent st) := by
  intro el hel
  obtain ⟨el0, rfl, hclean, hempty⟩ := renderCurrent_elements st el hel
  rw [renderCurrent_selected, updateHighlightEl_index]
  have ht := distanceTags_updateHighlightEl st.selected el0 hclean
  refine ⟨ht, ?_⟩
  intro he hh
  rw [updateHighlightEl_empty] at he
  have hout := hempty he
  have hmem : Cls.highlight ∈ distanceTags (updateHighlightEl st.selected el0) :=
    List.mem_filter.mpr ⟨hh, rfl⟩
  rw [ht] at hmem
  unfold expectedTags at hmem
  split_ifs at hmem with hd h4
  · omega
  · simp at hmem
  · cases hmem

theorem renderCurrent_indices (st : State) :
    (renderCurrent st).menuRoot.map Element.index =
      renderedIndices st.menuData st.selected := by
  unfold renderCurrent renderedIndices
  split
  · simp only [updateHighlight, renderLocked, clearMenu, List.nil_append, List.map_map]
    have hf : (Element.index ∘ updateHighlightEl st.selected ∘ updateHighlightEl st.selected ∘
        fun p : Nat × MenuItem => lockedElement p.2 p.1) =
        (fun i : Nat => (i : Int)) ∘ Prod.fst := by
      funext p
      simp [updateHighlightEl_index, lockedElement]
    rw [hf, ← List.map_map, List.enum_map_fst]
  · simp only [updateHighlight, renderScroll, clearMenu, List.nil_append, List.map_map, slots]
    apply List.map_congr_left
    intro s _
    simp [updateHighlightEl_index, scrollSlot_index]

theorem renderCurrent_empty_iff (st : State) :
    ∀ el ∈ (renderCurrent st).menuRoot,
      (Cls.empty ∈ el.classes ↔
        (el.index < 0 ∨ (st.menuData.items.length : Int) ≤ el.index)) := by
  intro el hel
  have hidx : el.index ∈ renderedIndices st.menuData st.selected := by
    rw [← renderCurrent_indices]
    exact List.mem_map_of_mem _ hel
  unfold renderCurrent at hel
  unfold renderedIndices at hidx
  split at hel
  · rename_i hv
    rw [if_pos hv] at hidx
    simp only [List.mem_map, List.mem_range] at hidx
    obtain ⟨i, hi, hie⟩ := hidx
    simp only [updateHighlight, renderLocked, clearMenu, List.nil_append, List.map_map,
      List.mem_map] at hel
    obtain ⟨p, _, hp⟩ := hel
    have hne : Cls.empty ∉ el.classes := by
      rw [← hp]
      simp only [Function.comp]
      rw [updateHighlightEl_empty, updateHighlightEl_empty]
      simp [lockedElement]
    constructor
    · intro h; exact absurd h hne
    · intro h; omega
  · simp only [updateHighlight, renderScroll, clearMenu, List.nil_append, List.map_map,
      List.mem_map] at hel
    obtain ⟨s, _, hs⟩ := hel
    rw [← hs]
    simp only [Function.comp]
    rw [updateHighlightEl_empty, updateHighlightEl_index, scrollSlot_index]
    exact scrollSlot_empty_iff _ _ _

theorem renderCurrent_rendered (st : State)
    (h0 : 0 ≤ st.selected) (h1 : st.selected < (st.menuData.items.length : Int)) :
    RenderedAndTagged (renderCurrent st) := by
  have htags := renderCurrent_tags st h0 h1
  have hidx := renderCurrent_indices st
  refine ⟨?_, htags, ?_, ?_⟩
  · rw [renderCurrent_menuData, renderCurrent_selected]
    exact hidx
  · rw [renderCurrent_menuData]
    exact renderCurrent_empty_iff st
  · have hsel : st.selected ∈ renderedIndices st.menuData st.selected := by
      unfold renderedIndices
      split
      · simp only [List.mem_map, List.mem_range]
        exact ⟨st.selected.toNat, by omega, by omega⟩
      · simp only [List.mem_map, List.mem_range]
        exact ⟨4, by omega, by omega⟩
    rw [← hidx] at hsel
    obtain ⟨el, hel, hi⟩ := List.mem_map.mp hsel
    refine ⟨el, hel, ?_, ?_⟩
    · rw [renderCurrent_selected]; exact hi
    · have := (htags el hel).1
      rw [renderCurrent_selected, hi] at this
      rw [this]
      simp [expectedTags]

/-- C4: after a refresh in either variant with `selected` in [0, n) (the
immediate render, or the render in either callback of the manifest request),
the list is rendered (one element per item in the locked variant, the nine
slots around `selected` in the scroll variant, the element of the selected item
among them), and every rendered element with index `idx` and
d = |idx - selected| carries exactly the distance classes due at d: `highlight`
alone when d = 0, `dim-d` alone when 1 ≤ d ≤ 4, none when d > 4; this includes
the empty placeholder slots of the scroll variant, which are the slots with
index outside [0, n) and never carry `highlight`. -/
theorem distance_tags_after_refresh (st : State) (h : SelectedInRange st) :
    (wantsAutoload st.menuData = false → RenderedAndTagged (refresh st)) ∧
    (∀ files, RenderedAndTagged (manifestResolved st files)) ∧
    RenderedAndTagged (manifestRejected st) ∧
    expectedTags 0 = [Cls.highlight] ∧
    (∀ d, 1 ≤ d → d ≤ 4 → expectedTags d = [Cls.dim d]) ∧
    (∀ d, 4 < d → expectedTags d = []) := by
  refine ⟨?_, ?_, ?_, rfl, ?_, ?_⟩
  · intro hna
    unfold refresh
    rw [hna]
    exact renderCurrent_rendered st h.2.1 h.2.2
  · intro files
    have hp := manifestResolved_preserves st files h
    unfold manifestResolved at hp ⊢
    simp only [renderCurrent_menuData, renderCurrent_selected, SelectedInRange] at hp
    exact renderCurrent_rendered _ hp.2.1 hp.2.2
  · unfold manifestRejected
    exact renderCurrent_rendered _ h.2.1 h.2.2
  · intro d h1 h4
    unfold expectedTags
    rw [if_neg (by omega), if_pos h4]
  · intro d h4
    unfold expectedTags
    rw [if_neg (by omega), if_neg (by omega)]

/-- C4, at the scenario descriptor with the second item selected: the nine
slots are rendered and tagged. -/
theorem distance_tags_after_refresh_witness :
    RenderedAndTagged (refresh { menuData := demoMenu, selected := 1 }) :=
  (distance_tags_after_refresh { menuData := demoMenu, selected := 1 } (by decide)).1
    (by decide)

/-! ## Enter and Backspace in menu mode -/

theorem keyHandler_enter (st : State) (hmode : st.mode = Mode.menu) :
    keyHandler st "Enter" = enterKey st := by
  have hm : ¬ st.mode = Mode.file := by rw [hmode]; decide
  unfold keyHandler
  dsimp only
  rw [if_neg hm]
  simp

theorem keyHandler_backspace (st : State) (hmode : st.mode = Mode.menu) :
    keyHandler st "Backspace" = backspaceKey st := by
  have hm : ¬ st.mode = Mode.file := by rw [hmode]; decide
  unfold keyHandler
  dsimp only
  rw [if_neg hm]
  simp

theorem orStr_jsOr_eq (item : MenuItem) (d : MenuData) :
    orStr (jsOr item.target d.return_) "index.html" = returnTargetOf item d := by
  unfold returnTargetOf jsOr orStr truthy
  cases ht : item.target with
  | none =>
    cases hr : d.return_ with
    | none => simp
    | some r => by_cases e : r = "" <;> simp [e]
  | some t =>
    by_cases e : t = ""
    · cases hr : d.return_ with
      | none => simp [e]
      | some r => by_cases e2 : r = "" <;> simp [e, e2]
    · simp [e]

theorem enterKey_return (st : State) (item : MenuItem)
    (hitem : jsIndex st.menuData.items st.selected = some item)
    (htype : item.type = some "return") :
    enterKey st =
      if endsWith (returnTargetOf item st.menuData) ".json" then
        { st with effects := st.effects ++
            [Effect.playSound "assets/sounds/blip.mp3" "blip",
             Effect.fetchMenu (returnTargetOf item st.menuData) Origin.enterReturn] }
      else
        { st with effects := st.effects ++
            [Effect.playSound "assets/sounds/blip.mp3" "blip",
             Effect.navigate (returnTargetOf item st.menuData)] } := by
  unfold enterKey playSound
  dsimp only
  rw [hitem]
  dsimp only
  rw [if_pos htype, orStr_jsOr_eq]
  split <;> simp

/-- C5: Enter in menu mode on a selected item of type `return` resolves the
target as the item's own target if present (a non-empty string), else the
descriptor's `return` if present, else `'index.html'`; if the target ends in
`'.json'` the descriptor is requested, and on its arrival replaces the current
one with `selected` reset to 0; otherwise the outcome is external navigation to
exactly that target.  With no item target and `return = 'index.html'` it
navigates to `'index.html'`. -/
theorem enter_on_return_item (st : State) (item : MenuItem) (hmode : st.mode = Mode.menu)
    (hitem : jsIndex st.menuData.items st.selected = some item)
    (htype : item.type = some "return") :
    (endsWith (returnTargetOf item st.menuData) ".json" = true →
      keyHandler st "Enter" =
        { st with effects := st.effects ++
            [Effect.playSound "assets/sounds/blip.mp3" "blip",
             Effect.fetchMenu (returnTargetOf item st.menuData) Origin.enterReturn] } ∧
      ∀ d, (menuResolved (keyHandler st "Enter") d).menuData = d ∧
        (menuResolved (keyHandler st "Enter") d).selected = 0) ∧
    (endsWith (returnTargetOf item st.menuData) ".json" = false →
      keyHandler st "Enter" =
        { st with effects := st.effects ++
            [Effect.playSound "assets/sounds/blip.mp3" "blip",
             Effect.navigate (returnTargetOf item st.menuData)] }) ∧
    (truthy item.target = false → st.menuData.return_ = some "index.html" →
      keyHandler st "Enter" =
        { st with effects := st.effects ++
            [Effect.playSound "assets/sounds/blip.mp3" "blip",
             Effect.navigate "index.html"] }) := by
  rw [keyHandler_enter st hmode, enterKey_return st item hitem htype]
  refine ⟨?_, ?_, ?_⟩
  · intro he
    rw [if_pos he]
    refine ⟨rfl, ?_⟩
    intro d
    simp [menuResolved]
  · intro he
    rw [he]
    simp
  · intro ht hr
    have htgt : returnTargetOf item st.menuData = "index.html" := by
      unfold returnTargetOf
      rw [hr]
      cases hti : item.target with
      | none => simp
      | some t =>
        rw [hti] at ht
        have : t = "" := by simpa [truthy] using ht
        simp [this]
    rw [htgt]
    have : endsWith "index.html" ".json" = false := by decide
    rw [this]
    simp

/-- C5, at the scenario descriptor with its return entry selected. -/
theorem enter_on_return_item_witness :
    keyHandler { menuData := demoMenu } "Enter" =
      { menuData := demoMenu
        effects := [Effect.playSound "assets/sounds/blip.mp3" "blip",
          Effect.navigate "index.html"] } :=
  (enter_on_return_item { menuData := demoMenu } { label := "Back", type := some "return" }
    rfl (by decide) rfl).2.2 (by decide) rfl

theorem jsIndex_some_range {α : Type} (items : List α) (i : Int) (a : α)
    (h : jsIndex items i = some a) : 0 ≤ i ∧ i < (items.length : Int) := by
  unfold jsIndex at h
  split at h
  · cases h
  · rename_i hi
    have hlt : i.toNat < items.length := by
      rcases Nat.lt_or_ge i.toNat items.length with h2 | h2
      · exact h2
      · rw [List.getElem?_eq_none h2] at h; cases h
    omega

theorem jsonTarget_false_iff (item : MenuItem) :
    (truthy item.target && endsWith (orStr item.target "") ".json") = false ↔
      ∀ t, item.target = some t → endsWith t ".json" = false := by
  have hempty : endsWith "" ".json" = false := by decide
  cases ht : item.target with
  | none => simp [truthy]
  | some t =>
    by_cases e : t = ""
    · subst e
      simp [truthy, hempty]
    · simp [truthy, orStr, e]

theorem truthy_orStr (a : Option String) (ft : String) (h : truthy a = true)
    (ha : a = some ft) : orStr a "" = ft := by
  subst ha
  simp [truthy] at h
  simp [orStr, h]

/-- Enter on an item that is not a return entry and has no `'.json'` target. -/
theorem enterKey_plain (st : State) (item : MenuItem)
    (hitem : jsIndex st.menuData.items st.selected = some item)
    (htype : item.type ≠ some "return")
    (hjson : (truthy item.target && endsWith (orStr item.target "") ".json") = false) :
    enterKey st =
      if (st.menuData.variant = some "scroll" ∧ truthy st.menuData.filetype = true) ∧
          ¬ (item.type = some "return" ∨ item.type = some "menu") then
        openFileViewer (playSound st "assets/sounds/blip.mp3" "blip") item.label
          (orStr st.menuData.filetype "")
      else playSound st "assets/sounds/blip.mp3" "blip" := by
  have hr := jsIndex_some_range _ _ _ hitem
  unfold enterKey
  have hm : (playSound st "assets/sounds/blip.mp3" "blip").menuData = st.menuData := rfl
  have hs : (playSound st "assets/sounds/blip.mp3" "blip").selected = st.selected := rfl
  simp only [hm, hs, hitem, if_neg htype, hjson]
  by_cases hv : st.menuData.variant = some "scroll" ∧ truthy st.menuData.filetype = true
  · have hge : st.selected ≥ 0 ∧ st.selected < (st.menuData.items.length : Int) := hr
    simp only [if_pos hv, if_pos hge, true_and]
    by_cases hty : item.type = some "return" ∨ item.type = some "menu"
    · simp [hty]
    · simp [hty, hv]
  · simp [hv]

theorem playSound_mode (st : State) (a b : String) : (playSound st a b).mode = st.mode :=
  rfl

theorem enterKey_mode_file_iff (st : State) (hmode : st.mode = Mode.menu) :
    (enterKey st).mode = Mode.file ↔
      ∃ item, jsIndex st.menuData.items st.selected = some item ∧
        OpensViewer st.menuData item := by
  have hmenu : Mode.menu ≠ Mode.file := by decide
  cases hitem : jsIndex st.menuData.items st.selected with
  | none =>
    have : enterKey st = playSound st "assets/sounds/blip.mp3" "blip" := by
      unfold enterKey
      have hm : (playSound st "assets/sounds/blip.mp3" "blip").menuData = st.menuData := rfl
      have hs : (playSound st "assets/sounds/blip.mp3" "blip").selected = st.selected := rfl
      simp only [hm, hs, hitem]
    rw [this, playSound_mode, hmode]
    simp
  | some item =>
    by_cases htype : item.type = some "return"
    · rw [enterKey_return st item hitem htype]
      constructor
      · intro h
        split at h <;> (simp only [hmode] at h; exact absurd h hmenu)
      · rintro ⟨it, hit, hov⟩
        cases hit
        exact absurd htype hov.1
    · cases hjson : (truthy item.target && endsWith (orStr item.target "") ".json") with
      | true =>
        have : enterKey st = { playSound st "assets/sounds/blip.mp3" "blip" with
            effects := (playSound st "assets/sounds/blip.mp3" "blip").effects ++
              [Effect.fetchMenu (orStr item.target "") Origin.enterTarget] } := by
          unfold enterKey
          have hm : (playSound st "assets/sounds/blip.mp3" "blip").menuData = st.menuData := rfl
          have hs : (playSound st "assets/sounds/blip.mp3" "blip").selected = st.selected := rfl
          simp only [hm, hs, hitem, if_neg htype, hjson]
          simp
        rw [this]
        constructor
        · intro h
          simp only [playSound_mode, hmode] at h
          exact absurd h hmenu
        · rintro ⟨it, hit, hov⟩
          cases hit
          have := (jsonTarget_false_iff item).mpr hov.2.2.1
          rw [hjson] at this
          cases this
      | false =>
        rw [enterKey_plain st item hitem htype hjson]
        constructor
        · intro h
          split at h
          · rename_i hc
            refine ⟨item, rfl, htype, ?_, (jsonTarget_false_iff item).mp hjson, hc.1.1, hc.1.2⟩
            intro hmn
            exact hc.2 (Or.inr hmn)
          · rw [playSound_mode, hmode] at h
            exact absurd h hmenu
        · rintro ⟨it, hit, hov⟩
          cases hit
          have hc : (st.menuData.variant = some "scroll" ∧ truthy st.menuData.filetype = true) ∧
              ¬ (item.type = some "return" ∨ item.type = some "menu") := by
            refine ⟨⟨hov.2.2.2.1, hov.2.2.2.2⟩, ?_⟩
            rintro (h | h)
            · exact hov.1 h
            · exact hov.2.1 h
          rw [if_pos hc]
          simp

/-- C6: in menu mode Enter moves to file mode if and only if there is a
selected item that is not of type `return` or `menu`, has no target ending in
`'.json'`, and the descriptor has variant `scroll` and declares a file type;
then the viewer is opened with exactly that item's label and the descriptor's
file type.  Enter never changes `selected` or the descriptor on its own, and
for a non-return item without `'.json'` target that fails the condition it does
nothing but play the activate cue, so the mode stays as it was too. -/
theorem enter_opens_viewer_iff (st : State) (hmode : st.mode = Mode.menu) :
    ((keyHandler st "Enter").mode = Mode.file ↔
      ∃ item, jsIndex st.menuData.items st.selected = some item ∧
        OpensViewer st.menuData item) ∧
    (∀ item ft, jsIndex st.menuData.items st.selected = some item →
      OpensViewer st.menuData item → st.menuData.filetype = some ft →
      keyHandler st "Enter" =
        openFileViewer (playSound st "assets/sounds/blip.mp3" "blip") item.label ft ∧
      (keyHandler st "Enter").fileHeader = item.label) ∧
    (keyHandler st "Enter").selected = st.selected ∧
    (keyHandler st "Enter").menuData = st.menuData ∧
    (∀ item, jsIndex st.menuData.items st.selected = some item →
      item.type ≠ some "return" →
      (∀ t, item.target = some t → endsWith t ".json" = false) →
      ¬ OpensViewer st.menuData item →
      keyHandler st "Enter" = playSound st "assets/sounds/blip.mp3" "blip") := by
  rw [keyHandler_enter st hmode]
  refine ⟨enterKey_mode_file_iff st hmode, ?_, enterKey_selected st, enterKey_menuData st, ?_⟩
  · intro item ft hitem hov hft
    have hjson := (jsonTarget_false_iff item).mpr hov.2.2.1
    rw [enterKey_plain st item hitem hov.1 hjson]
    have hc : (st.menuData.variant = some "scroll" ∧ truthy st.menuData.filetype = true) ∧
        ¬ (item.type = some "return" ∨ item.type = some "menu") := by
      refine ⟨⟨hov.2.2.2.1, hov.2.2.2.2⟩, ?_⟩
      rintro (h | h)
      · exact hov.1 h
      · exact hov.2.1 h
    rw [if_pos hc, truthy_orStr _ ft hov.2.2.2.2 hft]
    exact ⟨rfl, openFileViewer_fileHeader _ _ _⟩
  · intro item hitem htype hnj hnov
    have hjson := (jsonTarget_false_iff item).mpr hnj
    rw [enterKey_plain st item hitem htype hjson]
    have hc : ¬ ((st.menuData.variant = some "scroll" ∧ truthy st.menuData.filetype = true) ∧
        ¬ (item.type = some "return" ∨ item.type = some "menu")) := by
      rintro ⟨⟨hv, hf⟩, hty⟩
      apply hnov
      refine ⟨htype, ?_, hnj, hv, hf⟩
      intro hmn
      exact hty (Or.inr hmn)
    rw [if_neg hc]

/-- C6, at the scenario descriptor with the text file selected: Enter opens
the viewer on `a.txt` and requests the file. -/
theorem enter_opens_viewer_iff_witness :
    (keyHandler { menuData := demoMenu, selected := 1 } "Enter").mode = Mode.file :=
  (enter_opens_viewer_iff { menuData := demoMenu, selected := 1 } rfl).1.mpr
    ⟨{ label := "a.txt" }, by decide,
      ⟨by decide, by decide, fun _ ht => (by cases ht), rfl, rfl⟩⟩

/-! ## Autoload merge -/

/-- C7: for a descriptor with `autoload = true`, a folder and a non-empty item
list, refresh requests the folder manifest, and once a manifest (an ordered list
of file names) has arrived the items are the original item 0 followed by one
item `{label: f}` per file name `f` in manifest order: the return item stays at
index 0 and the length is 1 + manifest length.  With original items
`[{label:'Back',type:'return'}]` and manifest `['x.mp3','y.mp3']` the result is
`[{label:'Back',type:'return'},{label:'x.mp3'},{label:'y.mp3'}]`. -/
theorem autoload_merge_items (st : State) (first : MenuItem) (rest : List MenuItem)
    (files : List String) (hauto : st.menuData.autoload = true)
    (hfolder : truthy st.menuData.folder = true)
    (hitems : st.menuData.items = first :: rest) :
    refresh st =
      { st with effects := st.effects ++ [Effect.fetchManifest (manifestPath st.menuData)] } ∧
    (manifestResolved (refresh st) files).menuData.items =
      first :: files.map (fun f => ({ label := f } : MenuItem)) ∧
    (manifestResolved (refresh st) files).menuData.items.length = 1 + files.length ∧
    (manifestResolved (refresh st) files).menuData.items[0]? = some first ∧
    (manifestResolved (refresh { menuData := demoAutoload }) ["x.mp3", "y.mp3"]).menuData.items =
      [{ label := "Back", type := some "return" }, { label := "x.mp3" }, { label := "y.mp3" }] := by
  have hw : wantsAutoload st.menuData = true := by
    unfold wantsAutoload
    rw [hauto, hfolder]
    rfl
  have hitems2 : (manifestResolved (refresh st) files).menuData.items =
      first :: files.map (fun f => ({ label := f } : MenuItem)) := by
    simp [manifestResolved, mergeItems, hitems]
  refine ⟨?_, hitems2, ?_, ?_, ?_⟩
  · unfold refresh
    rw [if_pos hw]
  · rw [hitems2]
    simp
    omega
  · rw [hitems2]
    simp
  · simp [manifestResolved, mergeItems, demoAutoload]

/-- C7, at the autoload scenario of the design. -/
theorem autoload_merge_items_witness :
    (manifestResolved (refresh { menuData := demoAutoload }) ["x.mp3", "y.mp3"]).menuData.items.length
      = 1 + ["x.mp3", "y.mp3"].length :=
  (autoload_merge_items { menuData := demoAutoload } { label := "Back", type := some "return" } []
    ["x.mp3", "y.mp3"] rfl (by decide) rfl).2.2.1

/-! ## A failed descriptor request -/

/-- Backspace with a `return` that is a descriptor path: the request is issued
from the Backspace call site, and its failure navigates to the home page and
leaves descriptor and selection alone. -/
theorem backspace_fetch_failure_goes_home (st : State) (hmode : st.mode = Mode.menu)
    (hjson : endsWith (orStr st.menuData.return_ "index.html") ".json" = true) :
    keyHandler st "Backspace" =
      { st with effects := st.effects ++
          [Effect.playSound "assets/sounds/blip.mp3" "blip",
           Effect.fetchMenu (orStr st.menuData.return_ "index.html") Origin.backspace] } ∧
    (menuRejected (keyHandler st "Backspace") Origin.backspace).effects =
      (keyHandler st "Backspace").effects ++
        [Effect.log "fetchMenu failed", Effect.navigate "index.html"] ∧
    (menuRejected (keyHandler st "Backspace") Origin.backspace).menuData = st.menuData ∧
    (menuRejected (keyHandler st "Backspace") Origin.backspace).selected = st.selected := by
  rw [keyHandler_backspace st hmode]
  have hb : backspaceKey st = { st with effects := st.effects ++
      [Effect.playSound "assets/sounds/blip.mp3" "blip",
       Effect.fetchMenu (orStr st.menuData.return_ "index.html") Origin.backspace] } := by
    unfold backspaceKey playSound
    dsimp only
    rw [if_pos hjson]
    simp
  rw [hb]
  exact ⟨rfl, rfl, rfl, rfl⟩

/-- C8, the code at the failing input: the descriptor's `return` is the
descriptor path `'db/db.json'` and its return entry is selected.  Enter
resolves that path and requests it; when the request fails the trace ends with
the log entry and holds no navigation at all, while Backspace in the same state
ends, after the same failure, with the navigation to `'index.html'`. -/
theorem enter_return_fetch_failure_only_logs :
    (menuRejected (keyHandler { menuData := demoAutoload } "Enter") Origin.enterReturn).effects =
      [Effect.playSound "assets/sounds/blip.mp3" "blip",
       Effect.fetchMenu "db/db.json" Origin.enterReturn,
       Effect.log "fetchMenu failed"] ∧
    (menuRejected (keyHandler { menuData := demoAutoload } "Backspace") Origin.backspace).effects =
      [Effect.playSound "assets/sounds/blip.mp3" "blip",
       Effect.fetchMenu "db/db.json" Origin.backspace,
       Effect.log "fetchMenu failed",
       Effect.navigate "index.html"] := by
  constructor
  · decide
  · decide

/-! ## Keys in file mode -/

theorem cueCount_append_single (es : List Effect) (e : Effect)
    (h : ∀ a b, e ≠ Effect.playSound a b) : cueCount (es ++ [e]) = cueCount es := by
  unfold cueCount
  rw [List.filter_append]
  cases e with
  | playSound a b => exact absurd rfl (h a b)
  | _ => simp

theorem audioKey_backspace (st : State) (t : Int) :
    audioKey st t "Backspace" =
      closeFileView (playSound st "assets/sounds/blip.mp3" "blip") := by
  unfold audioKey
  simp

theorem scrollKey_backspace (st : State) :
    scrollKey st "Backspace" =
      closeFileView (playSound st "assets/sounds/blip.mp3" "blip") := by
  unfold scrollKey
  simp

theorem audioKey_other (st : State) (t : Int) (key : String) (hk : key ≠ "Backspace")
    (hmode : st.mode = Mode.file) :
    (audioKey st t key).mode = Mode.file ∧
      cueCount (audioKey st t key).effects = cueCount st.effects := by
  unfold audioKey
  dsimp only
  split_ifs
  all_goals first
    | exact ⟨hmode, rfl⟩
    | exact ⟨hmode, cueCount_append_single _ _ (by intro a b h; cases h)⟩

theorem scrollKey_other (st : State) (key : String) (hk : key ≠ "Backspace")
    (hmode : st.mode = Mode.file) :
    (scrollKey st key).mode = Mode.file ∧
      cueCount (scrollKey st key).effects = cueCount st.effects := by
  unfold scrollKey
  split_ifs
  all_goals first
    | exact ⟨hmode, rfl⟩
    | exact ⟨hmode, cueCount_append_single _ _ (by intro a b h; cases h)⟩

/-- C9: in file mode, with or without an audio player, Backspace sets the mode
to menu, emits exactly one activate cue, resets the audio keyboard focus to -1
and leaves the descriptor and `selected` as they were; every other key leaves
mode, descriptor and `selected` unchanged and emits no sound cue. -/
theorem file_mode_backspace_closes (st : State) (hmode : st.mode = Mode.file) :
    ((keyHandler st "Backspace").mode = Mode.menu ∧
      (keyHandler st "Backspace").effects =
        st.effects ++ [Effect.playSound "assets/sounds/blip.mp3" "blip"] ∧
      (keyHandler st "Backspace").audioPlayerFocus = -1 ∧
      (keyHandler st "Backspace").menuData = st.menuData ∧
      (keyHandler st "Backspace").selected = st.selected) ∧
    (∀ key, key ≠ "Backspace" →
      (keyHandler st key).mode = Mode.file ∧
      (keyHandler st key).menuData = st.menuData ∧
      (keyHandler st key).selected = st.selected ∧
      cueCount (keyHandler st key).effects = cueCount st.effects) := by
  constructor
  · have hb : keyHandler st "Backspace" =
        closeFileView (playSound st "assets/sounds/blip.mp3" "blip") := by
      unfold keyHandler
      dsimp only
      rw [if_pos hmode]
      split
      · exact audioKey_backspace _ _
      · exact scrollKey_backspace _
    rw [hb]
    exact ⟨rfl, rfl, rfl, rfl, rfl⟩
  · intro key hk
    refine ⟨?_, keyHandler_menuData st key, keyHandler_file_selected st key hmode, ?_⟩
    · unfold keyHandler
      dsimp only
      rw [if_pos hmode]
      split
      · exact (audioKey_other st _ key hk hmode).1
      · exact (scrollKey_other st key hk hmode).1
    · unfold keyHandler
      dsimp only
      rw [if_pos hmode]
      split
      · exact (audioKey_other st _ key hk hmode).2
      · exact (scrollKey_other st key hk hmode).2

/-- C9, with the audio player open and its third button focused. -/
theorem file_mode_backspace_closes_witness :
    (keyHandler
      { menuData := demoAutoload, selected := 1, mode := Mode.file,
        fileContent := FileContent.audioPlayer "db/mp3/x.mp3" 12, audioPlayerFocus := 2 }
      "Backspace").mode = Mode.menu :=
  (file_mode_backspace_closes
    { menuData := demoAutoload, selected := 1, mode := Mode.file,
      fileContent := FileContent.audioPlayer "db/mp3/x.mp3" 12, audioPlayerFocus := 2 }
    rfl).1.1

/-! ## Volume -/

theorem applyVolume_currentVolume (a : AudioState) :
    (applyVolume a).currentVolume = a.currentVolume := by
  unfold applyVolume
  cases a.gainNode <;> rfl

theorem toFixed2_nonneg (x : ℚ) (hx : 0 ≤ x) : 0 ≤ toFixed2 x := by
  unfold toFixed2
  rw [if_neg (not_lt.mpr hx)]
  have : (0 : ℤ) ≤ ⌊x * 100 + 1 / 2⌋ := Int.floor_nonneg.mpr (by linarith)
  have h2 : (0 : ℚ) ≤ ((⌊x * 100 + 1 / 2⌋ : ℤ) : ℚ) := by exact_mod_cast this
  positivity

theorem toFixed2_le_two (x : ℚ) (hx : x ≤ 2) : toFixed2 x ≤ 2 := by
  unfold toFixed2
  by_cases hneg : x < 0
  · rw [if_pos hneg]
    have : (0 : ℤ) ≤ ⌊-x * 100 + 1 / 2⌋ := Int.floor_nonneg.mpr (by linarith)
    have h2 : (0 : ℚ) ≤ ((⌊-x * 100 + 1 / 2⌋ : ℤ) : ℚ) := by exact_mod_cast this
    have h3 : -((⌊-x * 100 + 1 / 2⌋ : ℤ) : ℚ) / 100 ≤ 0 := by
      apply div_nonpos_of_nonpos_of_nonneg <;> linarith
    linarith
  · rw [if_neg hneg]
    have hfl : ((⌊x * 100 + 1 / 2⌋ : ℤ) : ℚ) ≤ x * 100 + 1 / 2 := Int.floor_le _
    have hlt : ⌊x * 100 + 1 / 2⌋ < 201 := by
      rw [Int.floor_lt]
      push_cast
      linarith
    have h2 : ((⌊x * 100 + 1 / 2⌋ : ℤ) : ℚ) ≤ 200 := by
      have : ⌊x * 100 + 1 / 2⌋ ≤ 200 := by omega
      exact_mod_cast this
    linarith

theorem roundHalfEven_cases (x : ℚ) :
    roundHalfEven x = ⌊x⌋ ∨ (roundHalfEven x = ⌊x⌋ + 1 ∧ 1 / 2 ≤ x - (⌊x⌋ : ℤ)) := by
  unfold roundHalfEven
  split_ifs with h1 h2 h3
  · left; rfl
  · right; exact ⟨rfl, le_of_lt h2⟩
  · left; rfl
  · right; exact ⟨rfl, not_lt.mp h1⟩

theorem roundHalfEven_near (x : ℚ) : |((roundHalfEven x : ℤ) : ℚ) - x| ≤ 1 / 2 := by
  have hf := Int.floor_le x
  have hl := Int.lt_floor_add_one x
  unfold roundHalfEven
  split_ifs with h1 h2 h3
  · rw [abs_le]; constructor <;> linarith
  · push_cast; rw [abs_le]; constructor <;> linarith
  · have h1' := not_lt.mp h1
    have h2' := not_lt.mp h2
    rw [abs_le]; constructor <;> linarith
  · have h1' := not_lt.mp h1
    have h2' := not_lt.mp h2
    push_cast; rw [abs_le]; constructor <;> linarith

theorem roundHalfEven_le_int (x : ℚ) (n : ℤ) (h : x ≤ (n : ℚ)) : roundHalfEven x ≤ n := by
  have hfn : ⌊x⌋ ≤ n := Int.floor_le_iff.mpr (by linarith)
  rcases roundHalfEven_cases x with hc | ⟨hc, hr⟩
  · rw [hc]; exact hfn
  · rw [hc]
    have hlt : (⌊x⌋ : ℚ) < (n : ℚ) := by linarith
    have : ⌊x⌋ < n := by exact_mod_cast hlt
    omega

theorem int_le_roundHalfEven (x : ℚ) (n : ℤ) (h : (n : ℚ) ≤ x) : n ≤ roundHalfEven x := by
  have hfn : n ≤ ⌊x⌋ := Int.le_floor.mpr h
  rcases roundHalfEven_cases x with hc | ⟨hc, _⟩
  · rw [hc]; exact hfn
  · rw [hc]; omega

/-- The quantum of the binade of `x`. -/
theorem quantum_pos (e : ℤ) : (0 : ℚ) < (2 : ℚ) ^ e := zpow_pos (by norm_num) e

theorem roundDouble_nonneg (x : ℚ) (h : 0 ≤ x) : 0 ≤ roundDouble x := by
  unfold roundDouble
  split_ifs with h0
  · exact le_refl _
  · have hq := quantum_pos (Max.max (Int.log 2 |x|) (-1022) - 52)
    have : (0 : ℤ) ≤ roundHalfEven (x / (2 : ℚ) ^ (Max.max (Int.log 2 |x|) (-1022) - 52)) :=
      int_le_roundHalfEven _ 0 (by push_cast; exact div_nonneg h (le_of_lt hq))
    have h2 : (0 : ℚ) ≤ (roundHalfEven
        (x / (2 : ℚ) ^ (Max.max (Int.log 2 |x|) (-1022) - 52)) : ℚ) := by exact_mod_cast this
    exact mul_nonneg h2 (le_of_lt hq)

theorem roundDouble_nonpos (x : ℚ) (h : x ≤ 0) : roundDouble x ≤ 0 := by
  unfold roundDouble
  split_ifs with h0
  · exact le_refl _
  · have hq := quantum_pos (Max.max (Int.log 2 |x|) (-1022) - 52)
    have : roundHalfEven (x / (2 : ℚ) ^ (Max.max (Int.log 2 |x|) (-1022) - 52)) ≤ (0 : ℤ) :=
      roundHalfEven_le_int _ 0 (by push_cast; exact div_nonpos_of_nonpos_of_nonneg h (le_of_lt hq))
    have h2 : (roundHalfEven
        (x / (2 : ℚ) ^ (Max.max (Int.log 2 |x|) (-1022) - 52)) : ℚ) ≤ 0 := by exact_mod_cast this
    exact mul_nonpos_of_nonpos_of_nonneg h2 (le_of_lt hq)

/-- The exponent used for `x` is at most `j` when `|x| ≤ 2 ^ j` and `j` is a normal exponent. -/
theorem exponent_le (x : ℚ) (j : ℤ) (hx0 : x ≠ 0) (hx : |x| ≤ (2 : ℚ) ^ j) (hj : -1022 ≤ j) :
    Max.max (Int.log 2 |x|) (-1022) ≤ j := by
  have hpos : 0 < |x| := abs_pos.mpr hx0
  have hlog : Int.log 2 |x| ≤ j := by
    have := Int.log_mono_right (b := 2) hpos hx
    rwa [show ((2 : ℚ) ^ j) = (((2 : ℕ) : ℚ) ^ j) by norm_num, Int.log_zpow (by norm_num)] at this
  exact max_le hlog hj

theorem le_exponent (x : ℚ) (j : ℤ) (hx : (2 : ℚ) ^ j ≤ |x|) :
    j ≤ Max.max (Int.log 2 |x|) (-1022) := by
  have hpos : 0 < |x| := lt_of_lt_of_le (quantum_pos j) hx
  have : j ≤ Int.log 2 |x| := by
    rw [← Int.zpow_le_iff_le_log (by norm_num) hpos]
    exact_mod_cast hx
  exact le_trans this (le_max_left _ _)

theorem zpow_two_int (k : ℤ) (hk : 0 ≤ k) : ∃ m : ℤ, ((m : ℤ) : ℚ) = (2 : ℚ) ^ k := by
  obtain ⟨n, rfl⟩ := Int.eq_ofNat_of_zero_le hk
  refine ⟨2 ^ n, ?_⟩
  push_cast
  rw [zpow_natCast]

theorem roundDouble_le_pow (x : ℚ) (j : ℤ) (hx : x ≤ (2 : ℚ) ^ j) (hj : -1022 ≤ j) :
    roundDouble x ≤ (2 : ℚ) ^ j := by
  rcases le_or_lt x 0 with hneg | hpos
  · exact le_trans (roundDouble_nonpos x hneg) (le_of_lt (quantum_pos j))
  · have hx0 : x ≠ 0 := ne_of_gt hpos
    have hab : |x| = x := abs_of_pos hpos
    have he := exponent_le x j hx0 (by rw [hab]; exact hx) hj
    unfold roundDouble
    rw [if_neg hx0]
    set e := Max.max (Int.log 2 |x|) (-1022) with he_def
    have hq := quantum_pos (e - 52)
    obtain ⟨m, hm⟩ := zpow_two_int (j - (e - 52)) (by omega)
    have hsplit : (2 : ℚ) ^ j = (2 : ℚ) ^ (j - (e - 52)) * (2 : ℚ) ^ (e - 52) := by
      rw [← zpow_add₀ (by norm_num : (2 : ℚ) ≠ 0)]
      congr 1
      ring
    have hle : roundHalfEven (x / (2 : ℚ) ^ (e - 52)) ≤ m := by
      apply roundHalfEven_le_int
      rw [hm, div_le_iff₀ hq, ← hsplit]
      exact hx
    have hle2 : ((roundHalfEven (x / (2 : ℚ) ^ (e - 52)) : ℤ) : ℚ) ≤ (m : ℚ) := by
      exact_mod_cast hle
    rw [hsplit, ← hm]
    exact mul_le_mul_of_nonneg_right hle2 (le_of_lt hq)

theorem pow_le_roundDouble (x : ℚ) (j : ℤ) (hx : (2 : ℚ) ^ j ≤ x) (hj : -1022 ≤ j) :
    (2 : ℚ) ^ j ≤ roundDouble x := by
  have hpos : 0 < x := lt_of_lt_of_le (quantum_pos j) hx
  have hx0 : x ≠ 0 := ne_of_gt hpos
  have hab : |x| = x := abs_of_pos hpos
  have hjlog : j ≤ Int.log 2 |x| := by
    rw [← Int.zpow_le_iff_le_log (by norm_num) (by rw [hab]; exact hpos)]
    rw [hab]
    exact_mod_cast hx
  have he : Max.max (Int.log 2 |x|) (-1022) = Int.log 2 |x| := max_eq_left (by omega)
  have hlow : (2 : ℚ) ^ (Int.log 2 |x|) ≤ x := by
    have := Int.zpow_log_le_self (b := 2) (r := |x|) (by norm_num) (by rw [hab]; exact hpos)
    rw [hab] at this ⊢
    exact_mod_cast this
  unfold roundDouble
  rw [if_neg hx0, he]
  set e := Int.log 2 |x| with he_def
  have hq := quantum_pos (e - 52)
  obtain ⟨m, hm⟩ := zpow_two_int 52 (by norm_num)
  have hsplit : (2 : ℚ) ^ e = (2 : ℚ) ^ (52 : ℤ) * (2 : ℚ) ^ (e - 52) := by
    rw [← zpow_add₀ (by norm_num : (2 : ℚ) ≠ 0)]
    congr 1
    ring
  have hle : m ≤ roundHalfEven (x / (2 : ℚ) ^ (e - 52)) := by
    apply int_le_roundHalfEven
    rw [hm, le_div_iff₀ hq, ← hsplit]
    exact hlow
  have hle2 : (m : ℚ) ≤ ((roundHalfEven (x / (2 : ℚ) ^ (e - 52)) : ℤ) : ℚ) := by
    exact_mod_cast hle
  calc (2 : ℚ) ^ j ≤ (2 : ℚ) ^ e := zpow_le_zpow_right₀ (by norm_num) hjlog
    _ = (m : ℚ) * (2 : ℚ) ^ (e - 52) := by rw [hsplit, hm]
    _ ≤ _ := mul_le_mul_of_nonneg_right hle2 (le_of_lt hq)

/-- Rounding to a double moves a number of magnitude below 4 by at most `2 ^ (-52)`. -/
theorem roundDouble_near (x : ℚ) (hx : |x| < 4) : |roundDouble x - x| ≤ 1 / 2 ^ 52 := by
  by_cases hx0 : x = 0
  · subst hx0
    simp [roundDouble]
  · have he := exponent_le x 2 hx0 (by norm_num; exact le_of_lt hx) (by norm_num)
    have hlog : Int.log 2 |x| < 2 := by
      rw [← Int.lt_zpow_iff_log_lt (by norm_num) (abs_pos.mpr hx0)]
      norm_num
      exact hx
    have he1 : Max.max (Int.log 2 |x|) (-1022) ≤ 1 := max_le (by omega) (by norm_num)
    unfold roundDouble
    rw [if_neg hx0]
    set e := Max.max (Int.log 2 |x|) (-1022) with he_def
    have hq := quantum_pos (e - 52)
    have hnear := roundHalfEven_near (x / (2 : ℚ) ^ (e - 52))
    have hqle : (2 : ℚ) ^ (e - 52) ≤ 1 / 2 ^ 51 := by
      have : (2 : ℚ) ^ (e - 52) ≤ (2 : ℚ) ^ (-51 : ℤ) :=
        zpow_le_zpow_right₀ (by norm_num) (by omega)
      calc (2 : ℚ) ^ (e - 52) ≤ (2 : ℚ) ^ (-51 : ℤ) := this
        _ = 1 / 2 ^ 51 := by norm_num [zpow_neg]
    have hrw : ((roundHalfEven (x / (2 : ℚ) ^ (e - 52)) : ℤ) : ℚ) * (2 : ℚ) ^ (e - 52) - x =
        (((roundHalfEven (x / (2 : ℚ) ^ (e - 52)) : ℤ) : ℚ) - x / (2 : ℚ) ^ (e - 52))
          * (2 : ℚ) ^ (e - 52) := by
      field_simp
    rw [hrw, abs_mul, abs_of_pos hq]
    calc |((roundHalfEven (x / (2 : ℚ) ^ (e - 52)) : ℤ) : ℚ) - x / (2 : ℚ) ^ (e - 52)|
          * (2 : ℚ) ^ (e - 52)
        ≤ 1 / 2 * (1 / 2 ^ 51) :=
          mul_le_mul hnear hqle (le_of_lt hq) (by norm_num)
      _ = 1 / 2 ^ 52 := by norm_num

theorem roundDouble_one : roundDouble 1 = 1 := by
  have h1 := roundDouble_le_pow 1 0 (by norm_num) (by norm_num)
  have h2 := pow_le_roundDouble 1 0 (by norm_num) (by norm_num)
  norm_num at h1 h2
  exact le_antisymm h1 h2

theorem roundDouble_two : roundDouble 2 = 2 := by
  have h1 := roundDouble_le_pow 2 1 (by norm_num) (by norm_num)
  have h2 := pow_le_roundDouble 2 1 (by norm_num) (by norm_num)
  norm_num at h1 h2
  exact le_antisymm h1 h2

theorem roundDouble_zero : roundDouble 0 = 0 := by
  simp [roundDouble]

theorem roundDouble_le_two (x : ℚ) (h : x ≤ 2) : roundDouble x ≤ 2 := by
  have := roundDouble_le_pow x 1 (by norm_num; exact h) (by norm_num)
  norm_num at this
  exact this

theorem two_le_roundDouble (x : ℚ) (h : 2 ≤ x) : 2 ≤ roundDouble x := by
  have := pow_le_roundDouble x 1 (by norm_num; exact h) (by norm_num)
  norm_num at this
  exact this

theorem toFixed2_of_near (y : ℚ) (n : ℤ) (h : |y - (n : ℚ) / 100| < 1 / 200) :
    toFixed2 y = (n : ℚ) / 100 := by
  rw [abs_lt] at h
  obtain ⟨h1, h2⟩ := h
  unfold toFixed2
  split_ifs with hneg
  · have hf : ⌊-y * 100 + 1 / 2⌋ = -n := by
      rw [Int.floor_eq_iff]
      push_cast
      constructor <;> linarith
    rw [hf]
    push_cast
    ring
  · have hf : ⌊y * 100 + 1 / 2⌋ = n := by
      rw [Int.floor_eq_iff]
      constructor <;> linarith
    rw [hf]

theorem toFixed2_int (y : ℚ) :
    ∃ n : ℤ, toFixed2 y = (n : ℚ) / 100 ∧ |(n : ℚ) / 100 - y| ≤ 1 / 200 ∧
      (0 ≤ y → 0 ≤ n) ∧ (y ≤ 0 → n ≤ 0) ∧ (y ≤ 2 → n ≤ 200) := by
  unfold toFixed2
  split_ifs with hneg
  · refine ⟨-⌊-y * 100 + 1 / 2⌋, by push_cast; ring, ?_, ?_, ?_, ?_⟩
    · have hf := Int.floor_le (-y * 100 + 1 / 2)
      have hl := Int.lt_floor_add_one (-y * 100 + 1 / 2)
      push_cast
      rw [abs_le]; constructor <;> linarith
    · intro h0; linarith
    · intro _
      have : (0 : ℤ) ≤ ⌊-y * 100 + 1 / 2⌋ := Int.floor_nonneg.mpr (by linarith)
      omega
    · intro _
      have : (0 : ℤ) ≤ ⌊-y * 100 + 1 / 2⌋ := Int.floor_nonneg.mpr (by linarith)
      omega
  · have hy : 0 ≤ y := not_lt.mp hneg
    refine ⟨⌊y * 100 + 1 / 2⌋, rfl, ?_, ?_, ?_, ?_⟩
    · have hf := Int.floor_le (y * 100 + 1 / 2)
      have hl := Int.lt_floor_add_one (y * 100 + 1 / 2)
      rw [abs_le]; constructor <;> linarith
    · intro _
      exact Int.floor_nonneg.mpr (by linarith)
    · intro h0
      have hy0 : y = 0 := le_antisymm h0 hy
      subst hy0
      norm_num
    · intro h2
      have : ⌊y * 100 + 1 / 2⌋ < 201 := by
        rw [Int.floor_lt]
        push_cast
        linarith
      omega

theorem step02_near : |step02 - 1 / 5| ≤ 1 / 2 ^ 52 := by
  unfold step02
  have := roundDouble_near 0.2 (by norm_num [abs_lt])
  norm_num at this ⊢
  exact this

theorem step02_nonneg : 0 ≤ step02 := roundDouble_nonneg _ (by norm_num)

theorem hundredths_near (h : ℕ) (hh : h ≤ 200) :
    |hundredths h - (h : ℚ) / 100| ≤ 1 / 2 ^ 52 := by
  unfold hundredths
  apply roundDouble_near
  have h1 : (0 : ℚ) ≤ (h : ℚ) / 100 := by positivity
  have h2 : (h : ℚ) ≤ 200 := by exact_mod_cast hh
  rw [abs_of_nonneg h1]
  linarith

theorem hundredths_zero : hundredths 0 = 0 := by
  simp [hundredths, roundDouble_zero]

theorem hundredths_hundred : hundredths 100 = 1 := by
  unfold hundredths
  norm_num
  exact roundDouble_one

theorem hundredths_two_hundred : hundredths 200 = 2 := by
  unfold hundredths
  norm_num
  exact roundDouble_two

theorem hundredths_nonneg (h : ℕ) : 0 ≤ hundredths h := roundDouble_nonneg _ (by positivity)

theorem hundredths_le_two (h : ℕ) (hh : h ≤ 200) : hundredths h ≤ 2 := by
  apply roundDouble_le_two
  have h2 : (h : ℚ) ≤ 200 := by exact_mod_cast hh
  linarith

/-- The double sum `v + 0.2`, for `v` in [0, 2], is within `2 ^ (-51)` of the exact sum. -/
theorem sum_near (v : ℚ) (h0 : 0 ≤ v) (h2 : v ≤ 2) :
    |roundDouble (v + step02) - (v + 1 / 5)| ≤ 1 / 2 ^ 51 := by
  have hs := step02_near
  rw [abs_le] at hs
  have hn := roundDouble_near (v + step02) (by rw [abs_lt]; constructor <;> linarith)
  rw [abs_le] at hn ⊢
  constructor <;> linarith

theorem diff_near (v : ℚ) (h0 : 0 ≤ v) (h2 : v ≤ 2) :
    |roundDouble (v - step02) - (v - 1 / 5)| ≤ 1 / 2 ^ 51 := by
  have hs := step02_near
  rw [abs_le] at hs
  have hn := roundDouble_near (v - step02) (by rw [abs_lt]; constructor <;> linarith)
  rw [abs_le] at hn ⊢
  constructor <;> linarith

theorem min_two_hundredths (n : ℤ) (h0 : 0 ≤ n) (h4 : n ≤ 399) :
    Min.min 2 (roundDouble ((n : ℚ) / 100)) = hundredths (Min.min 200 n.toNat) := by
  obtain ⟨k, rfl⟩ := Int.eq_ofNat_of_zero_le h0
  simp only [Int.toNat_ofNat]
  rcases le_or_lt 200 k with hk | hk
  · rw [min_eq_left hk, hundredths_two_hundred]
    apply min_eq_left
    apply two_le_roundDouble
    have : (200 : ℚ) ≤ (k : ℚ) := by exact_mod_cast hk
    push_cast
    linarith
  · rw [min_eq_right (le_of_lt hk)]
    unfold hundredths
    push_cast
    apply min_eq_right
    apply roundDouble_le_two
    have : (k : ℚ) ≤ 200 := by exact_mod_cast (le_of_lt hk)
    linarith

theorem max_zero_hundredths (n : ℤ) :
    Max.max 0 (roundDouble ((n : ℚ) / 100)) = hundredths n.toNat := by
  rcases le_or_lt 0 n with h0 | h0
  · obtain ⟨k, rfl⟩ := Int.eq_ofNat_of_zero_le h0
    simp only [Int.toNat_ofNat]
    unfold hundredths
    push_cast
    exact max_eq_right (roundDouble_nonneg _ (by positivity))
  · have hz : n.toNat = 0 := Int.toNat_eq_zero.mpr (le_of_lt h0)
    rw [hz, hundredths_zero]
    apply max_eq_left
    apply roundDouble_nonpos
    have : (n : ℚ) < 0 := by exact_mod_cast h0
    linarith

theorem up_on_grid (h : ℕ) (hh : h ≤ 200) :
    Min.min 2 (roundDouble (toFixed2 (roundDouble (hundredths h + step02)))) =
      hundredths (Min.min 200 (h + 20)) := by
  have hg := hundredths_near h hh
  have hs := sum_near (hundredths h) (hundredths_nonneg h) (hundredths_le_two h hh)
  rw [abs_le] at hg hs
  have hfix : toFixed2 (roundDouble (hundredths h + step02)) = (((h + 20 : ℕ) : ℤ) : ℚ) / 100 := by
    apply toFixed2_of_near
    push_cast
    rw [abs_lt]
    constructor <;> norm_num at hg hs ⊢ <;> linarith
  rw [hfix, min_two_hundredths _ (by omega) (by omega), Int.toNat_ofNat]

theorem down_on_grid (h : ℕ) (hh : h ≤ 200) :
    Max.max 0 (roundDouble (toFixed2 (roundDouble (hundredths h - step02)))) =
      hundredths (h - 20) := by
  have hg := hundredths_near h hh
  have hs := diff_near (hundredths h) (hundredths_nonneg h) (hundredths_le_two h hh)
  rw [abs_le] at hg hs
  have hfix : toFixed2 (roundDouble (hundredths h - step02)) = (((h : ℤ) - 20 : ℤ) : ℚ) / 100 := by
    apply toFixed2_of_near
    push_cast
    rw [abs_lt]
    constructor <;> norm_num at hg hs ⊢ <;> linarith
  rw [hfix, max_zero_hundredths]
  congr 1
  omega

theorem up_rounds (v : ℚ) (h0 : 0 ≤ v) (h2 : v ≤ 2) :
    ∃ m : ℕ, m ≤ 200 ∧
      Min.min 2 (roundDouble (toFixed2 (roundDouble (v + step02)))) = hundredths m ∧
      |(m : ℚ) / 100 - Min.min 2 (v + 1 / 5)| ≤ 1 / 200 + 1 / 2 ^ 51 := by
  have hs := sum_near v h0 h2
  have hy0 : 0 ≤ roundDouble (v + step02) :=
    roundDouble_nonneg _ (add_nonneg h0 step02_nonneg)
  obtain ⟨n, hn, hnear, hpos, _, _⟩ := toFixed2_int (roundDouble (v + step02))
  have hn0 := hpos hy0
  rw [abs_le] at hs hnear
  have hn4 : n ≤ 399 := by
    have : (n : ℚ) < 400 := by norm_num at hs hnear ⊢; linarith
    have : n < 400 := by exact_mod_cast this
    omega
  obtain ⟨k, rfl⟩ := Int.eq_ofNat_of_zero_le hn0
  refine ⟨Min.min 200 k, min_le_left _ _, ?_, ?_⟩
  · rw [hn, min_two_hundredths _ hn0 hn4, Int.toNat_ofNat]
  · push_cast at hnear
    rcases le_total 200 k with hk | hk
    · rw [min_eq_left hk]
      have hkq : (200 : ℚ) ≤ (k : ℚ) := by exact_mod_cast hk
      push_cast
      rcases le_total 2 (v + 1 / 5) with hv | hv
      · rw [min_eq_left hv]; norm_num
      · rw [min_eq_right hv, abs_le]
        constructor <;> norm_num at hs hnear ⊢ <;> linarith
    · rw [min_eq_right hk]
      have hkq : (k : ℚ) ≤ 200 := by exact_mod_cast hk
      rcases le_total 2 (v + 1 / 5) with hv | hv
      · rw [min_eq_left hv, abs_le]
        constructor <;> norm_num at hs hnear ⊢ <;> linarith
      · rw [min_eq_right hv, abs_le]
        constructor <;> norm_num at hs hnear ⊢ <;> linarith

theorem down_rounds (v : ℚ) (h0 : 0 ≤ v) (h2 : v ≤ 2) :
    ∃ m : ℕ, m ≤ 200 ∧
      Max.max 0 (roundDouble (toFixed2 (roundDouble (v - step02)))) = hundredths m ∧
      |(m : ℚ) / 100 - Max.max 0 (v - 1 / 5)| ≤ 1 / 200 + 1 / 2 ^ 51 := by
  have hs := diff_near v h0 h2
  have hy2 : roundDouble (v - step02) ≤ 2 :=
    roundDouble_le_two _ (by linarith [step02_nonneg])
  obtain ⟨n, hn, hnear, _, _, hle⟩ := toFixed2_int (roundDouble (v - step02))
  have hn2 := hle hy2
  rw [abs_le] at hs hnear
  refine ⟨n.toNat, by omega, ?_, ?_⟩
  · rw [hn, max_zero_hundredths]
  · rcases le_or_lt 0 n with hn0 | hn0
    · obtain ⟨k, rfl⟩ := Int.eq_ofNat_of_zero_le hn0
      simp only [Int.toNat_ofNat]
      push_cast at hnear
      have hk0 : (0 : ℚ) ≤ (k : ℚ) := by positivity
      rcases le_total 0 (v - 1 / 5) with hv | hv
      · rw [max_eq_right hv, abs_le]
        constructor <;> norm_num at hs hnear ⊢ <;> linarith
      · rw [max_eq_left hv, abs_le]
        constructor <;> norm_num at hs hnear ⊢ <;> linarith
    · have hz : n.toNat = 0 := Int.toNat_eq_zero.mpr (le_of_lt hn0)
      have hnq : (n : ℚ) < 0 := by exact_mod_cast hn0
      rw [hz]
      rcases le_total 0 (v - 1 / 5) with hv | hv
      · rw [max_eq_right hv, abs_le]
        constructor <;> norm_num at hs hnear ⊢ <;> linarith
      · rw [max_eq_left hv]; norm_num

theorem roundDouble_eval (x : ℚ) (e : ℤ) (h1 : (2 : ℚ) ^ e ≤ |x|)
    (h2 : |x| < (2 : ℚ) ^ (e + 1)) (he : -1022 ≤ e) :
    roundDouble x = (roundHalfEven (x / (2 : ℚ) ^ (e - 52)) : ℚ) * (2 : ℚ) ^ (e - 52) := by
  have hpos : 0 < |x| := lt_of_lt_of_le (quantum_pos e) h1
  have hx0 : x ≠ 0 := abs_pos.mp hpos
  have hlog : Int.log 2 |x| = e := by
    apply le_antisymm
    · have : Int.log 2 |x| < e + 1 := by
        rw [← Int.lt_zpow_iff_log_lt (by norm_num) hpos]
        exact_mod_cast h2
      omega
    · rw [← Int.zpow_le_iff_le_log (by norm_num) hpos]
      exact_mod_cast h1
  unfold roundDouble
  rw [if_neg hx0, hlog, max_eq_left he]

theorem step02_value : step02 = 3602879701896397 / 18014398509481984 := by
  unfold step02
  rw [roundDouble_eval 0.2 (-3) (by norm_num [zpow_neg, abs_of_pos])
    (by norm_num [zpow_neg, abs_of_pos]) (by norm_num)]
  unfold roundHalfEven
  norm_num [zpow_neg]

theorem roundDouble_three_eighths : roundDouble (3 / 16 * 2) = 3 / 8 := by
  rw [roundDouble_eval (3 / 16 * 2) (-2) (by norm_num [zpow_neg, abs_of_pos])
    (by norm_num [zpow_neg, abs_of_pos]) (by norm_num)]
  unfold roundHalfEven
  norm_num [zpow_neg]

theorem up_three_eighths :
    Min.min 2 (roundDouble (toFixed2 (roundDouble (3 / 8 + step02)))) =
      roundDouble (57 / 100) := by
  have hsum : roundDouble (3 / 8 + step02) = 2589569785738035 / 4503599627370496 := by
    rw [step02_value,
      roundDouble_eval _ (-1) (by norm_num [zpow_neg, abs_of_pos])
        (by norm_num [zpow_neg, abs_of_pos]) (by norm_num)]
    unfold roundHalfEven
    norm_num [zpow_neg]
  have hfix : toFixed2 (2589569785738035 / 4503599627370496) = 57 / 100 := by
    unfold toFixed2
    norm_num
  rw [hsum, hfix]
  apply min_eq_right
  apply roundDouble_le_two
  norm_num

theorem down_three_eighths :
    Max.max 0 (roundDouble (toFixed2 (roundDouble (3 / 8 - step02)))) =
      roundDouble (17 / 100) := by
  have hsum : roundDouble (3 / 8 - step02) = 3152519739159347 / 18014398509481984 := by
    rw [step02_value,
      roundDouble_eval _ (-3) (by norm_num [zpow_neg, abs_of_pos])
        (by norm_num [zpow_neg, abs_of_pos]) (by norm_num)]
    unfold roundHalfEven
    norm_num [zpow_neg]
  have hfix : toFixed2 (3152519739159347 / 18014398509481984) = 17 / 100 := by
    unfold toFixed2
    norm_num
  rw [hsum, hfix]
  apply max_eq_right
  apply roundDouble_nonneg
  norm_num

theorem volumeStep_in_range (a : AudioState) (c : VolumeClick)
    (h0 : 0 ≤ a.currentVolume) (h2 : a.currentVolume ≤ 2) :
    0 ≤ (volumeStep a c).currentVolume ∧ (volumeStep a c).currentVolume ≤ 2 := by
  cases c with
  | down =>
    simp only [volumeStep, volDownClick, applyVolume_currentVolume]
    refine ⟨le_max_left _ _, max_le (by norm_num) ?_⟩
    apply roundDouble_le_two
    apply toFixed2_le_two
    apply roundDouble_le_two
    linarith [step02_nonneg]
  | up =>
    simp only [volumeStep, volUpClick, applyVolume_currentVolume]
    refine ⟨le_min (by norm_num) ?_, min_le_left _ _⟩
    apply roundDouble_nonneg
    apply toFixed2_nonneg
    apply roundDouble_nonneg
    linarith [step02_nonneg]
  | bar pct =>
    simp only [volumeStep, volBarClick, applyVolume_currentVolume]
    exact ⟨le_max_left _ _, max_le (by norm_num) (min_le_left _ _)⟩

theorem volumeRun_in_range (clicks : List VolumeClick) (a : AudioState)
    (h0 : 0 ≤ a.currentVolume) (h2 : a.currentVolume ≤ 2) :
    0 ≤ (volumeRun a clicks).currentVolume ∧ (volumeRun a clicks).currentVolume ≤ 2 := by
  induction clicks generalizing a with
  | nil => exact ⟨h0, h2⟩
  | cons c cs ih =>
    unfold volumeRun
    rw [List.foldl_cons]
    have hs := volumeStep_in_range a c h0 h2
    exact ih _ hs.1 hs.2

theorem volUp_on_grid (a : AudioState) (h : Nat) (hh : h ≤ 200)
    (ha : a.currentVolume = hundredths h) :
    (volUpClick a).currentVolume = hundredths (Min.min 200 (h + 20)) := by
  simp only [volUpClick, applyVolume_currentVolume]
  rw [ha]
  exact up_on_grid h hh

theorem volDown_on_grid (a : AudioState) (h : Nat) (hh : h ≤ 200)
    (ha : a.currentVolume = hundredths h) :
    (volDownClick a).currentVolume = hundredths (h - 20) := by
  simp only [volDownClick, applyVolume_currentVolume]
  rw [ha]
  exact down_on_grid h hh

theorem volumeRun_append (a : AudioState) (xs ys : List VolumeClick) :
    volumeRun a (xs ++ ys) = volumeRun (volumeRun a xs) ys := by
  unfold volumeRun
  rw [List.foldl_append]

theorem volUp_repeated (a : AudioState) (ha : a.currentVolume = 0) (k : Nat) :
    (volumeRun a (List.replicate k VolumeClick.up)).currentVolume =
      hundredths (Min.min 200 (20 * k)) := by
  induction k with
  | zero =>
    simp [volumeRun, ha, hundredths_zero]
  | succ k ih =>
    rw [List.replicate_succ', volumeRun_append]
    have hstep : volumeRun (volumeRun a (List.replicate k VolumeClick.up)) [VolumeClick.up] =
        volUpClick (volumeRun a (List.replicate k VolumeClick.up)) := rfl
    rw [hstep, volUp_on_grid _ _ (min_le_left _ _) ih]
    congr 1
    omega

theorem buttons_keep_grid (clicks : List VolumeClick) (a : AudioState)
    (hc : ∀ c ∈ clicks, c = VolumeClick.up ∨ c = VolumeClick.down)
    (ha : ∃ h : Nat, h ≤ 200 ∧ a.currentVolume = hundredths h) :
    ∃ h : Nat, h ≤ 200 ∧ (volumeRun a clicks).currentVolume = hundredths h := by
  induction clicks generalizing a with
  | nil => exact ha
  | cons c cs ih =>
    unfold volumeRun
    rw [List.foldl_cons]
    apply ih
    · intro c2 hc2
      exact hc c2 (List.mem_cons_of_mem _ hc2)
    · obtain ⟨h, hh, hv⟩ := ha
      rcases hc c (List.mem_cons_self _ _) with e | e
      · subst e
        exact ⟨Min.min 200 (h + 20), min_le_left _ _, volUp_on_grid a h hh hv⟩
      · subst e
        exact ⟨h - 20, by omega, volDown_on_grid a h hh hv⟩

theorem audioInit_volume : audioInit.currentVolume = 1 := by
  unfold audioInit
  rw [applyVolume_currentVolume]

/-- The rounding is that of the double sum: after a click at 3/16 of the bar
the volume is 0.375; the double `0.375 + 0.2` lies just below 0.575, so volume-up
gives 0.57, and volume-down gives 0.17. -/
theorem volume_rounds_the_double_sum :
    (volBarClick audioInit (3 / 16)).currentVolume = 3 / 8 ∧
    (volUpClick (volBarClick audioInit (3 / 16))).currentVolume = hundredths 57 ∧
    (volDownClick (volBarClick audioInit (3 / 16))).currentVolume = hundredths 17 := by
  have hbar : (volBarClick audioInit (3 / 16)).currentVolume = 3 / 8 := by
    simp only [volBarClick, applyVolume_currentVolume]
    rw [roundDouble_three_eighths]
    norm_num
  refine ⟨hbar, ?_, ?_⟩
  · simp only [volUpClick, applyVolume_currentVolume]
    rw [hbar, up_three_eighths]
    unfold hundredths
    norm_num
  · simp only [volDownClick, applyVolume_currentVolume]
    rw [hbar, down_three_eighths]
    unfold hundredths
    norm_num

/-- C10, as stated, fails after a click on the volume bar: a click at one
sixth of the bar sets the volume to the double nearest 1/3, and volume-up then
gives 0.53, the two-decimal rounding of 0.5333…, which is neither
`min(2, v + 0.2)` as a real number nor the double sum `v + 0.2` capped at 2. -/
theorem volume_up_after_bar_click_rounds :
    (volBarClick audioInit (1 / 6)).currentVolume = roundDouble (1 / 3) ∧
    (volUpClick (volBarClick audioInit (1 / 6))).currentVolume = hundredths 53 ∧
    (volUpClick (volBarClick audioInit (1 / 6))).currentVolume ≠
      Min.min 2 ((volBarClick audioInit (1 / 6)).currentVolume + 0.2) ∧
    (volUpClick (volBarClick audioInit (1 / 6))).currentVolume ≠
      Min.min 2 (roundDouble ((volBarClick audioInit (1 / 6)).currentVolume + step02)) := by
  have hnear := roundDouble_near (1 / 3) (by norm_num [abs_lt])
  have h0 : 0 ≤ roundDouble (1 / 3) := roundDouble_nonneg _ (by norm_num)
  have h2 : roundDouble (1 / 3) ≤ 2 := roundDouble_le_two _ (by norm_num)
  have hbar : (volBarClick audioInit (1 / 6)).currentVolume = roundDouble (1 / 3) := by
    simp only [volBarClick, applyVolume_currentVolume]
    rw [show (1 / 6 : ℚ) * 2 = 1 / 3 by norm_num, min_eq_right h2, max_eq_right h0]
  have hs := sum_near (roundDouble (1 / 3)) h0 h2
  rw [abs_le] at hnear hs
  have hfix : toFixed2 (roundDouble (roundDouble (1 / 3) + step02)) = ((53 : ℤ) : ℚ) / 100 := by
    apply toFixed2_of_near
    rw [abs_lt]
    constructor <;> norm_num at hnear hs ⊢ <;> linarith
  have hup : (volUpClick (volBarClick audioInit (1 / 6))).currentVolume = hundredths 53 := by
    simp only [volUpClick, applyVolume_currentVolume]
    rw [hbar, hfix, min_two_hundredths _ (by norm_num) (by norm_num)]
    rfl
  have h53 := hundredths_near 53 (by norm_num)
  rw [abs_le] at h53
  refine ⟨hbar, hup, ?_, ?_⟩
  · rw [hup, hbar]
    intro heq
    have hlt : hundredths 53 < Min.min 2 (roundDouble (1 / 3) + 0.2) := by
      apply lt_min <;> norm_num at hnear h53 ⊢ <;> linarith
    exact absurd heq (ne_of_lt hlt)
  · rw [hup, hbar]
    intro heq
    have hlt : hundredths 53 <
        Min.min 2 (roundDouble (roundDouble (1 / 3) + step02)) := by
      apply lt_min <;> norm_num at hnear hs h53 ⊢ <;> linarith
    exact absurd heq (ne_of_lt hlt)

/-- C10, amended: the audio volume stays in [0, 2] after every finite sequence
of volume-down, volume-up and volume-bar clicks from the default 1 (and from any
volume in [0, 2]).  On a volume of `h` hundredths, 0 ≤ h ≤ 200 (the double
nearest `h / 100`, within 2^-52 of it), volume-up gives `min(200, h + 20)`
hundredths and volume-down `max(0, h - 20)` hundredths, that is `min(2, v + 0.2)`
and `max(0, v - 0.2)`; the volume is such a number after any sequence of button
clicks from the default, so k increases from 0 give `min(2, 0.2 k)`.  On any
volume `v` in [0, 2], as a volume-bar click can leave, volume-up and
volume-down give a whole number of hundredths within 0.005 + 2^-51 of
`min(2, v + 0.2)` and `max(0, v - 0.2)`: the two-decimal rounding of the double
sum; at 0.375, where the double `0.375 + 0.2` lies just below 0.575, that is
0.57 going up and 0.17 going down. -/
theorem volume_stays_clamped :
    audioInit.currentVolume = 1 ∧
    (∀ clicks, 0 ≤ (volumeRun audioInit clicks).currentVolume ∧
      (volumeRun audioInit clicks).currentVolume ≤ 2) ∧
    (∀ a clicks, 0 ≤ a.currentVolume → a.currentVolume ≤ 2 →
      0 ≤ (volumeRun a clicks).currentVolume ∧ (volumeRun a clicks).currentVolume ≤ 2) ∧
    (∀ a (h : Nat), h ≤ 200 → a.currentVolume = hundredths h →
      (volUpClick a).currentVolume = hundredths (Min.min 200 (h + 20)) ∧
      (volDownClick a).currentVolume = hundredths (h - 20)) ∧
    ((∀ h : Nat, h ≤ 200 → |hundredths h - (h : ℚ) / 100| ≤ 1 / 2 ^ 52) ∧
      hundredths 0 = 0 ∧ hundredths 100 = 1 ∧ hundredths 200 = 2) ∧
    (∀ clicks, (∀ c ∈ clicks, c = VolumeClick.up ∨ c = VolumeClick.down) →
      ∃ h : Nat, h ≤ 200 ∧ (volumeRun audioInit clicks).currentVolume = hundredths h) ∧
    (∀ a (k : Nat), a.currentVolume = 0 →
      (volumeRun a (List.replicate k VolumeClick.up)).currentVolume =
        hundredths (Min.min 200 (20 * k))) ∧
    (∀ a : AudioState, 0 ≤ a.currentVolume → a.currentVolume ≤ 2 →
      (∃ m : Nat, m ≤ 200 ∧ (volUpClick a).currentVolume = hundredths m ∧
        |(m : ℚ) / 100 - Min.min 2 (a.currentVolume + 1 / 5)| ≤ 1 / 200 + 1 / 2 ^ 51) ∧
      (∃ m : Nat, m ≤ 200 ∧ (volDownClick a).currentVolume = hundredths m ∧
        |(m : ℚ) / 100 - Max.max 0 (a.currentVolume - 1 / 5)| ≤ 1 / 200 + 1 / 2 ^ 51)) ∧
    ((volBarClick audioInit (3 / 16)).currentVolume = 3 / 8 ∧
      (volUpClick (volBarClick audioInit (3 / 16))).currentVolume = hundredths 57 ∧
      (volDownClick (volBarClick audioInit (3 / 16))).currentVolume = hundredths 17) := by
  have hinit := audioInit_volume
  refine ⟨hinit, ?_, ?_, ?_, ?_, ?_, ?_, ?_, volume_rounds_the_double_sum⟩
  · intro clicks
    exact volumeRun_in_range clicks audioInit (by rw [hinit]; norm_num) (by rw [hinit]; norm_num)
  · intro a clicks h0 h2
    exact volumeRun_in_range clicks a h0 h2
  · intro a h hh ha
    exact ⟨volUp_on_grid a h hh ha, volDown_on_grid a h hh ha⟩
  · exact ⟨hundredths_near, hundredths_zero, hundredths_hundred, hundredths_two_hundred⟩
  · intro clicks hc
    exact buttons_keep_grid clicks audioInit hc
      ⟨100, by norm_num, by rw [hinit, hundredths_hundred]⟩
  · intro a k ha
    exact volUp_repeated a ha k
  · intro a h0 h2
    constructor
    · simp only [volUpClick, applyVolume_currentVolume]
      exact up_rounds a.currentVolume h0 h2
    · simp only [volDownClick, applyVolume_currentVolume]
      exact down_rounds a.currentVolume h0 h2

/-- C10 amended, at the default volume: one volume-up click gives 1.2. -/
theorem volume_stays_clamped_witness :
    (volUpClick audioInit).currentVolume = hundredths 120 :=
  (volume_stays_clamped.2.2.2.1 audioInit 100 (by decide)
    (by rw [volume_stays_clamped.1, volume_stays_clamped.2.2.2.2.1.2.2.1])).1

/-! ## Speed selection -/

theorem applyVolume_speed (a : AudioState) :
    (applyVolume a).speedActive = a.speedActive ∧
    (applyVolume a).currentSpeed = a.currentSpeed ∧
    (applyVolume a).playbackRate = a.playbackRate := by
  unfold applyVolume
  cases a.gainNode <;> exact ⟨rfl, rfl, rfl⟩

theorem startProgressPolling_speed (a : AudioState) :
    (startProgressPolling a).speedActive = a.speedActive ∧
    (startProgressPolling a).currentSpeed = a.currentSpeed ∧
    (startProgressPolling a).playbackRate = a.playbackRate := by
  unfold startProgressPolling
  cases a.progressInterval <;> exact ⟨rfl, rfl, rfl⟩

theorem stopProgressPolling_speed (a : AudioState) :
    (stopProgressPolling a).speedActive = a.speedActive ∧
    (stopProgressPolling a).currentSpeed = a.currentSpeed ∧
    (stopProgressPolling a).playbackRate = a.playbackRate := by
  unfold stopProgressPolling
  cases a.progressInterval <;> exact ⟨rfl, rfl, rfl⟩

/-- Every event but a speed click leaves the speed selection alone. -/
theorem audioStep_speed_frame (a : AudioState) (e : AudioEvent)
    (he : ∀ j, e ≠ AudioEvent.speedClick j) :
    (audioStep a e).speedActive = a.speedActive ∧
    (audioStep a e).currentSpeed = a.currentSpeed ∧
    (audioStep a e).playbackRate = a.playbackRate := by
  cases e with
  | playClick w =>
    simp only [audioStep, playClick]
    split_ifs <;>
      first
        | exact stopProgressPolling_speed _
        | exact startProgressPolling_speed _
  | stopClick => exact stopProgressPolling_speed _
  | mediaPlay => exact startProgressPolling_speed _
  | mediaPause => exact stopProgressPolling_speed _
  | mediaEnded => exact stopProgressPolling_speed _
  | volume c =>
    cases c <;> exact applyVolume_speed _
  | speedClick i => exact absurd rfl (he i)

theorem set_onlyActive (l : List Bool) (h : l.length = 5) (i : Fin 5) :
    (l.map (fun _ => false)).set i.val true = onlyActive i := by
  rcases l with _ | ⟨b0, _ | ⟨b1, _ | ⟨b2, _ | ⟨b3, _ | ⟨b4, _ | ⟨b5, l⟩⟩⟩⟩⟩⟩ <;>
    simp at h
  fin_cases i <;> rfl

theorem speedValues_get (i : Fin 5) : ∃ v, speedValues[i.val]? = some v := by
  fin_cases i <;> exact ⟨_, rfl⟩

theorem speedClick_result (a : AudioState) (h : a.speedActive.length = 5) (i : Fin 5) :
    (speedClick a i).speedActive = onlyActive i ∧
    some (speedClick a i).currentSpeed = speedValues[i.val]? ∧
    some (speedClick a i).playbackRate = speedValues[i.val]? := by
  obtain ⟨v, hv⟩ := speedValues_get i
  unfold speedClick
  rw [hv]
  exact ⟨set_onlyActive _ h i, rfl, rfl⟩

theorem onlyActive_length (i : Fin 5) : (onlyActive i).length = 5 := by
  simp [onlyActive]

theorem onlyActive_count (i : Fin 5) : (onlyActive i).count true = 1 := by
  fin_cases i <;> rfl

theorem audioInit_speed :
    audioInit.speedActive = [false, true, false, false, false] ∧
    audioInit.currentSpeed = 1 ∧ audioInit.playbackRate = 1 := by
  have h := applyVolume_speed {}
  unfold audioInit
  rw [h.1, h.2.1, h.2.2]
  refine ⟨?_, rfl, rfl⟩
  simp [speedValues]
  norm_num

theorem audioStep_speed_length (a : AudioState) (e : AudioEvent)
    (h : a.speedActive.length = 5) : (audioStep a e).speedActive.length = 5 := by
  by_cases he : ∀ j, e ≠ AudioEvent.speedClick j
  · rw [(audioStep_speed_frame a e he).1]; exact h
  · push_neg at he
    obtain ⟨j, rfl⟩ := he
    show (speedClick a j).speedActive.length = 5
    rw [(speedClick_result a h j).1]
    exact onlyActive_length j

theorem audioRun_speed_length (events : List AudioEvent) (a : AudioState)
    (h : a.speedActive.length = 5) : (audioRun a events).speedActive.length = 5 := by
  induction events generalizing a with
  | nil => exact h
  | cons e es ih =>
    unfold audioRun
    rw [List.foldl_cons]
    exact ih _ (audioStep_speed_length a e h)

theorem audioStep_activeCount (a : AudioState) (e : AudioEvent)
    (h : a.speedActive.length = 5) (hc : activeCount a = 1) :
    activeCount (audioStep a e) = 1 := by
  unfold activeCount at hc ⊢
  by_cases he : ∀ j, e ≠ AudioEvent.speedClick j
  · rw [(audioStep_speed_frame a e he).1]; exact hc
  · push_neg at he
    obtain ⟨j, rfl⟩ := he
    show (speedClick a j).speedActive.count true = 1
    rw [(speedClick_result a h j).1]
    exact onlyActive_count j

theorem audioRun_activeCount (events : List AudioEvent) (a : AudioState)
    (h : a.speedActive.length = 5) (hc : activeCount a = 1) :
    activeCount (audioRun a events) = 1 := by
  induction events generalizing a with
  | nil => exact hc
  | cons e es ih =>
    unfold audioRun
    rw [List.foldl_cons]
    exact ih _ (audioStep_speed_length a e h) (audioStep_activeCount a e h hc)

theorem audioRun_speed_frame (rest : List AudioEvent) (a : AudioState)
    (h : ∀ e ∈ rest, ∀ j, e ≠ AudioEvent.speedClick j) :
    (audioRun a rest).speedActive = a.speedActive ∧
    (audioRun a rest).currentSpeed = a.currentSpeed ∧
    (audioRun a rest).playbackRate = a.playbackRate := by
  induction rest generalizing a with
  | nil => exact ⟨rfl, rfl, rfl⟩
  | cons e es ih =>
    unfold audioRun
    rw [List.foldl_cons]
    have h1 := audioStep_speed_frame a e (h e (List.mem_cons_self _ _))
    have h2 := ih (audioStep a e) (fun e2 he2 => h e2 (List.mem_cons_of_mem _ he2))
    unfold audioRun at h2
    rw [h2.1, h2.2.1, h2.2.2]
    exact h1

theorem audioRun_append (a : AudioState) (xs ys : List AudioEvent) :
    audioRun a (xs ++ ys) = audioRun (audioRun a xs) ys := by
  unfold audioRun
  rw [List.foldl_append]

/-- C11: exactly one of the five speed buttons (0.5, 1, 1.5, 2, 4) is active
at all times: the player is built with only the 1x button active and speed 1;
after every finite sequence of events on the player exactly one button is
active; and after a click on speed button `i`, whatever came before and
whatever events other than speed clicks come after, button `i` alone is active
and `currentSpeed` and the playback rate are that button's value. -/
theorem speed_selection_exclusive :
    (audioInit.speedActive = [false, true, false, false, false] ∧
      audioInit.currentSpeed = 1 ∧ audioInit.playbackRate = 1) ∧
    speedValues = [0.5, 1, 1.5, 2, 4] ∧
    (∀ events, activeCount (audioRun audioInit events) = 1) ∧
    (∀ (events : List AudioEvent) (i : Fin 5) (rest : List AudioEvent),
      (∀ e ∈ rest, ∀ j, e ≠ AudioEvent.speedClick j) →
      (audioRun audioInit (events ++ AudioEvent.speedClick i :: rest)).speedActive
        = onlyActive i ∧
      some (audioRun audioInit (events ++ AudioEvent.speedClick i :: rest)).currentSpeed
        = speedValues[i.val]? ∧
      some (audioRun audioInit (events ++ AudioEvent.speedClick i :: rest)).playbackRate
        = speedValues[i.val]?) ∧
    (∀ (i : Fin 5) (j : Nat), j < 5 → ((onlyActive i)[j]? = some true ↔ j = i.val)) := by
  have hlen : audioInit.speedActive.length = 5 := by
    rw [audioInit_speed.1]; rfl
  have hcount : activeCount audioInit = 1 := by
    unfold activeCount
    rw [audioInit_speed.1]; rfl
  refine ⟨audioInit_speed, rfl, ?_, ?_, ?_⟩
  · intro events
    exact audioRun_activeCount events audioInit hlen hcount
  · intro events i rest hrest
    have hsplit : audioRun audioInit (events ++ AudioEvent.speedClick i :: rest) =
        audioRun (speedClick (audioRun audioInit events) i) rest := by
      rw [audioRun_append]
      rfl
    rw [hsplit]
    have hf := audioRun_speed_frame rest (speedClick (audioRun audioInit events) i) hrest
    rw [hf.1, hf.2.1, hf.2.2]
    exact speedClick_result _ (audioRun_speed_length events audioInit hlen) i
  · intro i j hj
    unfold onlyActive
    rw [List.getElem?_map, List.getElem?_range hj]
    simp

/-- C11, after clicking 2x and then 4x: the 4x button alone is active. -/
theorem speed_selection_exclusive_witness :
    (audioRun audioInit [AudioEvent.speedClick 3, AudioEvent.speedClick 4]).speedActive
      = onlyActive 4 :=
  (speed_selection_exclusive.2.2.2.1 [AudioEvent.speedClick 3] 4 []
    (fun _ h => (by cases h))).1

/-! ## Keyboard focus on the button grid -/

theorem keyHandler_audio (st : State) (src : String) (total : Nat) (key : String)
    (hmode : st.mode = Mode.file)
    (hplayer : st.fileContent = FileContent.audioPlayer src total) :
    keyHandler st key = audioKey st (total : Int) key := by
  unfold keyHandler
  dsimp only
  rw [if_pos hmode, hplayer]
  rfl

theorem audioKey_right (st : State) (t : Int) (key : String)
    (hk : key = "ArrowRight" ∨ key = "d") :
    audioKey st t key = { st with audioPlayerFocus := jsRem (st.audioPlayerFocus + 1) t } := by
  unfold audioKey
  rw [if_pos hk]

theorem audioKey_left (st : State) (t : Int) (key : String)
    (hk : key = "ArrowLeft" ∨ key = "a") :
    audioKey st t key =
      { st with audioPlayerFocus := jsRem (st.audioPlayerFocus - 1 + t) t } := by
  have hnr : ¬ (key = "ArrowRight" ∨ key = "d") := by
    rcases hk with h | h <;> subst h <;> decide
  unfold audioKey
  rw [if_neg hnr, if_pos hk]

theorem jsRem_right (t f : Int) (ht : 1 ≤ t) (hlo : -1 ≤ f) :
    jsRem (f + 1) t = focusRight t f := by
  unfold jsRem focusRight
  exact Int.tmod_eq_emod (by omega) (by omega)

theorem jsRem_left (t f : Int) (ht : 1 ≤ t) (hlo : -1 ≤ f) :
    jsRem (f - 1 + t) t = focusLeft t f := by
  unfold jsRem focusLeft
  by_cases h : 0 ≤ f - 1 + t
  · rw [Int.tmod_eq_emod h (by omega), Int.add_emod_self]
  · have h1 : t = 1 := by omega
    have h2 : f = -1 := by omega
    subst h1 h2
    decide

theorem focusRight_eq (t f : Int) (hlo : -1 ≤ f) (hhi : f < t) :
    focusRight t f = if f + 1 = t then 0 else f + 1 := by
  unfold focusRight
  split_ifs with h
  · rw [h, Int.emod_self]
  · exact Int.emod_eq_of_lt (by omega) (by omega)

theorem focusLeft_eq (t f : Int) (ht : 1 ≤ t) (hlo : -1 ≤ f) (hhi : f < t) :
    focusLeft t f =
      if 1 ≤ f then f - 1 else if f = 0 then t - 1 else if t = 1 then 0 else t - 2 := by
  unfold focusLeft
  split_ifs with h1 h0 ht1
  · exact Int.emod_eq_of_lt (by omega) (by omega)
  · subst h0
    rw [← @Int.add_emod_self (0 - 1) t]
    have e : (0 - 1 + t : Int) = t - 1 := by omega
    rw [e]
    exact Int.emod_eq_of_lt (by omega) (by omega)
  · subst ht1
    exact Int.emod_one _
  · have hf : f = -1 := by omega
    subst hf
    rw [← @Int.add_emod_self (-1 - 1) t]
    have e : (-1 - 1 + t : Int) = t - 2 := by omega
    rw [e]
    exact Int.emod_eq_of_lt (by omega) (by omega)

theorem state_focus_self (st : State) (f : Int) (h : f = st.audioPlayerFocus) :
    { st with audioPlayerFocus := f } = st := by
  subst h
  rfl

/-- C12: with `total ≥ 1` buttons and focus `f` in [-1, total), ArrowRight or
`d` sets the focus to `(f + 1) mod total` and ArrowLeft or `a` to
`(f - 1) mod total`; the result lies in [0, total), right from the last button
wraps to 0, left from button 0 wraps to the last button, and on [0, total) left
and right undo each other. -/
theorem focus_left_right_wrap (st : State) (src : String) (total : Nat)
    (hmode : st.mode = Mode.file)
    (hplayer : st.fileContent = FileContent.audioPlayer src total)
    (htotal : 1 ≤ total) (hlo : -1 ≤ st.audioPlayerFocus)
    (hhi : st.audioPlayerFocus < (total : Int)) :
    (∀ key, key = "ArrowRight" ∨ key = "d" →
      keyHandler st key =
        { st with audioPlayerFocus := focusRight (total : Int) st.audioPlayerFocus }) ∧
    (∀ key, key = "ArrowLeft" ∨ key = "a" →
      keyHandler st key =
        { st with audioPlayerFocus := focusLeft (total : Int) st.audioPlayerFocus }) ∧
    (0 ≤ focusRight (total : Int) st.audioPlayerFocus ∧
      focusRight (total : Int) st.audioPlayerFocus < (total : Int)) ∧
    (0 ≤ focusLeft (total : Int) st.audioPlayerFocus ∧
      focusLeft (total : Int) st.audioPlayerFocus < (total : Int)) ∧
    (st.audioPlayerFocus = (total : Int) - 1 →
      focusRight (total : Int) st.audioPlayerFocus = 0) ∧
    (st.audioPlayerFocus = 0 →
      focusLeft (total : Int) st.audioPlayerFocus = (total : Int) - 1) ∧
    (0 ≤ st.audioPlayerFocus →
      keyHandler (keyHandler st "ArrowRight") "ArrowLeft" = st ∧
      keyHandler (keyHandler st "ArrowLeft") "ArrowRight" = st) := by
  have ht : (1 : Int) ≤ (total : Int) := by omega
  have hR : ∀ (s : State) key, s.mode = Mode.file →
      s.fileContent = FileContent.audioPlayer src total → -1 ≤ s.audioPlayerFocus →
      key = "ArrowRight" ∨ key = "d" →
      keyHandler s key =
        { s with audioPlayerFocus := focusRight (total : Int) s.audioPlayerFocus } := by
    intro s key hm hp hl hk
    rw [keyHandler_audio s src total key hm hp, audioKey_right s _ key hk,
      jsRem_right _ _ ht hl]
  have hL : ∀ (s : State) key, s.mode = Mode.file →
      s.fileContent = FileContent.audioPlayer src total → -1 ≤ s.audioPlayerFocus →
      key = "ArrowLeft" ∨ key = "a" →
      keyHandler s key =
        { s with audioPlayerFocus := focusLeft (total : Int) s.audioPlayerFocus } := by
    intro s key hm hp hl hk
    rw [keyHandler_audio s src total key hm hp, audioKey_left s _ key hk,
      jsRem_left _ _ ht hl]
  have eR := focusRight_eq (total : Int) st.audioPlayerFocus hlo hhi
  have eL := focusLeft_eq (total : Int) st.audioPlayerFocus ht hlo hhi
  refine ⟨fun key hk => hR st key hmode hplayer hlo hk,
    fun key hk => hL st key hmode hplayer hlo hk, ?_, ?_, ?_, ?_, ?_⟩
  · rw [eR]; split_ifs <;> omega
  · rw [eL]; split_ifs <;> omega
  · intro h; rw [eR]; split_ifs <;> omega
  · intro h; rw [eL]; split_ifs <;> omega
  · intro h0
    constructor
    · rw [hR st "ArrowRight" hmode hplayer hlo (Or.inl rfl)]
      have hr0 : 0 ≤ focusRight (total : Int) st.audioPlayerFocus := by
        rw [eR]; split_ifs <;> omega
      have hrt : focusRight (total : Int) st.audioPlayerFocus < (total : Int) := by
        rw [eR]; split_ifs <;> omega
      have h2 := hL { st with audioPlayerFocus := focusRight (total : Int) st.audioPlayerFocus }
        "ArrowLeft" hmode hplayer (by show -1 ≤ focusRight _ _; omega) (Or.inl rfl)
      have hfix : focusLeft (total : Int) (focusRight (total : Int) st.audioPlayerFocus)
          = st.audioPlayerFocus := by
        rw [focusLeft_eq _ _ ht (by omega) hrt, eR]
        split_ifs <;> omega
      rw [h2]
      exact state_focus_self st _ hfix
    · rw [hL st "ArrowLeft" hmode hplayer hlo (Or.inl rfl)]
      have hl0 : 0 ≤ focusLeft (total : Int) st.audioPlayerFocus := by
        rw [eL]; split_ifs <;> omega
      have hlt : focusLeft (total : Int) st.audioPlayerFocus < (total : Int) := by
        rw [eL]; split_ifs <;> omega
      have h2 := hR { st with audioPlayerFocus := focusLeft (total : Int) st.audioPlayerFocus }
        "ArrowRight" hmode hplayer (by show -1 ≤ focusLeft _ _; omega) (Or.inl rfl)
      have hfix : focusRight (total : Int) (focusLeft (total : Int) st.audioPlayerFocus)
          = st.audioPlayerFocus := by
        rw [focusRight_eq _ _ (by omega) hlt, eL]
        split_ifs <;> omega
      rw [h2]
      exact state_focus_self st _ hfix

/-- C12, on the player as built (12 buttons) with no button focused yet. -/
theorem focus_left_right_wrap_witness :
    keyHandler demoSession.nav "ArrowRight" =
      { demoSession.nav with audioPlayerFocus := focusRight 12 (-1) } :=
  (focus_left_right_wrap demoSession.nav "db/mp3/x.mp3" 12 rfl rfl (by decide) (by decide)
    (by decide)).1 "ArrowRight" (Or.inl rfl)

theorem audioKey_down (st : State) (t : Int) (h0 : 0 ≤ st.audioPlayerFocus) :
    audioKey st t "ArrowDown" =
      if st.audioPlayerFocus < 6 then
        { st with audioPlayerFocus :=
            if 6 + jsRem st.audioPlayerFocus 6 < t then 6 + jsRem st.audioPlayerFocus 6
            else t - 1 }
      else { st with audioPlayerFocus := st.audioPlayerFocus - 6 } := by
  have hn : ¬ st.audioPlayerFocus < 0 := by omega
  unfold audioKey
  simp [gridColumns, hn]

theorem audioKey_up (st : State) (t : Int) (h0 : 0 ≤ st.audioPlayerFocus) :
    audioKey st t "ArrowUp" =
      if st.audioPlayerFocus ≥ 6 then { st with audioPlayerFocus := st.audioPlayerFocus - 6 }
      else
        { st with audioPlayerFocus :=
            if 6 + jsRem st.audioPlayerFocus 6 < t then 6 + jsRem st.audioPlayerFocus 6
            else st.audioPlayerFocus } := by
  have hn : ¬ st.audioPlayerFocus < 0 := by omega
  unfold audioKey
  simp [gridColumns, hn]

theorem jsRem_column (f : Int) (h0 : 0 ≤ f) (h6 : f < 6) : jsRem f 6 = f := by
  unfold jsRem
  exact Int.tmod_eq_of_lt h0 h6

/-- C13: on a grid of 6 or 12 buttons (indeed of any size `total`) with focus
`f` in [0, total), ArrowDown
from a row-1 button (f < 6) moves to `6 + f` when that index exists and otherwise
to the last index `total - 1`; ArrowUp from a row-2 button (f ≥ 6) moves to
`f - 6`; ArrowUp from a row-1 button moves to `6 + f` when that index exists and
otherwise stays at `f`; ArrowDown from a row-2 button moves to `f - 6`; in all
cases the resulting focus lies in [0, total) and nothing else changes. -/
theorem focus_up_down_rows (st : State) (src : String) (total : Nat)
    (hmode : st.mode = Mode.file)
    (hplayer : st.fileContent = FileContent.audioPlayer src total)
    (hlo : 0 ≤ st.audioPlayerFocus) (hhi : st.audioPlayerFocus < (total : Int)) :
    (st.audioPlayerFocus < 6 →
      keyHandler st "ArrowDown" =
        { st with audioPlayerFocus :=
            if 6 + st.audioPlayerFocus < (total : Int) then 6 + st.audioPlayerFocus
            else (total : Int) - 1 }) ∧
    (6 ≤ st.audioPlayerFocus →
      keyHandler st "ArrowUp" = { st with audioPlayerFocus := st.audioPlayerFocus - 6 }) ∧
    (st.audioPlayerFocus < 6 →
      keyHandler st "ArrowUp" =
        { st with audioPlayerFocus :=
            if 6 + st.audioPlayerFocus < (total : Int) then 6 + st.audioPlayerFocus
            else st.audioPlayerFocus }) ∧
    (6 ≤ st.audioPlayerFocus →
      keyHandler st "ArrowDown" = { st with audioPlayerFocus := st.audioPlayerFocus - 6 }) ∧
    (0 ≤ (keyHandler st "ArrowDown").audioPlayerFocus ∧
      (keyHandler st "ArrowDown").audioPlayerFocus < (total : Int)) ∧
    (0 ≤ (keyHandler st "ArrowUp").audioPlayerFocus ∧
      (keyHandler st "ArrowUp").audioPlayerFocus < (total : Int)) := by
  have hd := keyHandler_audio st src total "ArrowDown" hmode hplayer
  have hu := keyHandler_audio st src total "ArrowUp" hmode hplayer
  rw [hd, hu, audioKey_down st _ hlo, audioKey_up st _ hlo]
  refine ⟨?_, ?_, ?_, ?_, ?_, ?_⟩
  · intro h6
    rw [if_pos h6, jsRem_column _ hlo h6]
  · intro h6
    rw [if_pos h6]
  · intro h6
    rw [if_neg (by omega), jsRem_column _ hlo h6]
  · intro h6
    rw [if_neg (by omega)]
  · by_cases h6 : st.audioPlayerFocus < 6
    · rw [if_pos h6, jsRem_column _ hlo h6]
      dsimp only
      split_ifs <;> omega
    · rw [if_neg h6]
      dsimp only
      omega
  · by_cases h6 : st.audioPlayerFocus ≥ 6
    · rw [if_pos h6]
      dsimp only
      omega
    · rw [if_neg h6, jsRem_column _ hlo (by omega)]
      dsimp only
      split_ifs <;> omega

/-- C13, on the player as built (12 buttons) with the stop button focused:
ArrowDown moves to the button below it. -/
theorem focus_up_down_rows_witness :
    keyHandler { demoSession.nav with audioPlayerFocus := 3 } "ArrowDown" =
      { demoSession.nav with audioPlayerFocus := 9 } :=
  (focus_up_down_rows { demoSession.nav with audioPlayerFocus := 3 } "db/mp3/x.mp3" 12 rfl rfl
    (by decide) (by decide)).1 (by decide)

/-! ## Progress polling -/

theorem applyVolume_timers (a : AudioState) :
    (applyVolume a).timers = a.timers ∧
    (applyVolume a).progressInterval = a.progressInterval := by
  unfold applyVolume
  cases a.gainNode <;> exact ⟨rfl, rfl⟩

theorem stopProgressPolling_timers (a : AudioState)
    (h : a.timers = a.progressInterval.toList) :
    (stopProgressPolling a).timers = [] ∧ (stopProgressPolling a).progressInterval = none := by
  unfold stopProgressPolling
  cases hp : a.progressInterval with
  | none =>
    rw [hp] at h
    exact ⟨h, hp⟩
  | some t =>
    rw [hp] at h
    simp [h]

theorem startProgressPolling_timers (a : AudioState)
    (h : a.timers = a.progressInterval.toList) :
    (startProgressPolling a).timers = (startProgressPolling a).progressInterval.toList ∧
    (startProgressPolling a).progressInterval = some a.nextTimer := by
  unfold startProgressPolling
  cases hp : a.progressInterval with
  | none =>
    rw [hp] at h
    simp [h]
  | some t =>
    rw [hp] at h
    simp [h]

theorem startProgressPolling_inv (a : AudioState)
    (h : a.timers = a.progressInterval.toList) :
    (startProgressPolling a).timers = (startProgressPolling a).progressInterval.toList :=
  (startProgressPolling_timers a h).1

theorem stopProgressPolling_inv (a : AudioState)
    (h : a.timers = a.progressInterval.toList) :
    (stopProgressPolling a).timers = (stopProgressPolling a).progressInterval.toList := by
  have := stopProgressPolling_timers a h
  rw [this.1, this.2]
  rfl

theorem stopProgressPolling_none (a : AudioState)
    (h : a.timers = a.progressInterval.toList) : (stopProgressPolling a).timers = [] :=
  (stopProgressPolling_timers a h).1

/-- The live intervals are exactly the one the player holds. -/
theorem audioStep_timers (a : AudioState) (e : AudioEvent)
    (h : a.timers = a.progressInterval.toList) :
    (audioStep a e).timers = (audioStep a e).progressInterval.toList := by
  cases e with
  | playClick w =>
    simp only [audioStep, playClick]
    split_ifs
    · apply stopProgressPolling_inv; exact h
    · apply startProgressPolling_inv; exact h
    · apply stopProgressPolling_inv; exact h
    · apply startProgressPolling_inv; exact h
  | stopClick => apply stopProgressPolling_inv; exact h
  | mediaPlay => apply startProgressPolling_inv; exact h
  | mediaPause => apply stopProgressPolling_inv; exact h
  | mediaEnded => apply stopProgressPolling_inv; exact h
  | volume c =>
    cases c <;>
      (simp only [audioStep, volumeStep, volDownClick, volUpClick, volBarClick,
        (applyVolume_timers _).1, (applyVolume_timers _).2]
       exact h)
  | speedClick i =>
    obtain ⟨v, hv⟩ := speedValues_get i
    simp only [audioStep, speedClick, hv]
    exact h

theorem audioRun_timers (events : List AudioEvent) (a : AudioState)
    (h : a.timers = a.progressInterval.toList) :
    (audioRun a events).timers = (audioRun a events).progressInterval.toList := by
  induction events generalizing a with
  | nil => exact h
  | cons e es ih =>
    unfold audioRun
    rw [List.foldl_cons]
    exact ih _ (audioStep_timers a e h)

theorem audioInit_timers : audioInit.timers = audioInit.progressInterval.toList := by
  unfold audioInit
  rw [(applyVolume_timers _).1, (applyVolume_timers _).2]
  rfl

/-- The exits the player handles itself: in every state reachable from the
player as built, a pause click (a click on play/pause while playing), a stop
click, a `pause` notification and an `ended` notification leave no interval
live. -/
theorem polling_cancelled_on_pause_stop_end (events : List AudioEvent) (w : Bool) :
    ((audioRun audioInit events).isPlaying = true →
      (playClick (audioRun audioInit events) w).timers = []) ∧
    (stopClick (audioRun audioInit events)).timers = [] ∧
    (mediaPause (audioRun audioInit events)).timers = [] ∧
    (mediaEnded (audioRun audioInit events)).timers = [] := by
  have h := audioRun_timers events audioInit audioInit_timers
  refine ⟨?_, ?_, ?_, ?_⟩
  · intro hp
    unfold playClick
    dsimp only
    split_ifs <;> (apply stopProgressPolling_none; exact h)
  · apply stopProgressPolling_none; exact h
  · apply stopProgressPolling_none; exact h
  · apply stopProgressPolling_none; exact h

/-- C14, the code at the failing input: the audio viewer is open, play is
clicked, then the viewer is closed.  The interval set by the play click is
still live after the close, and `progressInterval` still holds it: closing
changes nothing of the player's closure, in any session.  A stop click in place
of the close leaves no interval live. -/
theorem close_leaves_polling_timer :
    (sessionRun demoSession
      [SessionEvent.audio (AudioEvent.playClick true), SessionEvent.closeView]).audio.timers
      = [1] ∧
    (sessionRun demoSession
      [SessionEvent.audio (AudioEvent.playClick true),
       SessionEvent.closeView]).audio.progressInterval = some 1 ∧
    (sessionRun demoSession
      [SessionEvent.audio (AudioEvent.playClick true), SessionEvent.closeView]).nav.mode
      = Mode.menu ∧
    (sessionRun demoSession
      [SessionEvent.audio (AudioEvent.playClick true),
       SessionEvent.audio AudioEvent.stopClick]).audio.timers = [] ∧
    (∀ s : Session, (sessionStep s SessionEvent.closeView).audio = s.audio) := by
  refine ⟨?_, ?_, ?_, ?_, ?_⟩
  · simp [sessionRun, sessionStep, audioStep, playClick, startProgressPolling, demoSession,
      audioInit, applyVolume]
  · simp [sessionRun, sessionStep, audioStep, playClick, startProgressPolling, demoSession,
      audioInit, applyVolume]
  · rfl
  · simp [sessionRun, sessionStep, audioStep, playClick, startProgressPolling, stopClick,
      stopProgressPolling, demoSession, audioInit, applyVolume]
  · intro s
    rfl

/-! ## Autoload: failure and repetition -/

theorem refresh_autoload (st : State) (hauto : st.menuData.autoload = true)
    (hfolder : truthy st.menuData.folder = true) :
    refresh st =
      { st with effects := st.effects ++ [Effect.fetchManifest (manifestPath st.menuData)] } := by
  have hw : wantsAutoload st.menuData = true := by
    unfold wantsAutoload
    rw [hauto, hfolder]
    rfl
  unfold refresh
  rw [if_pos hw]

/-- What is rendered depends on the descriptor and the selection only. -/
theorem renderCurrent_menuRoot_congr (a b : State) (hm : a.menuData = b.menuData)
    (hs : a.selected = b.selected) :
    (renderCurrent a).menuRoot = (renderCurrent b).menuRoot := by
  unfold renderCurrent
  rw [hm]
  split
  · simp only [updateHighlight, renderLocked, clearMenu, hs, hm]
  · simp only [updateHighlight, renderScroll, clearMenu, hs, hm]

theorem updateHighlightEl_label (selected : Int) (el : Element) :
    (updateHighlightEl selected el).label = el.label := by
  unfold updateHighlightEl
  dsimp only
  split_ifs <;> rfl

theorem renderCurrent_locked_labels (st : State) (h : st.menuData.variant = some "locked") :
    (renderCurrent st).menuRoot.map Element.label =
      st.menuData.items.map (fun it => some it.label) := by
  unfold renderCurrent
  rw [if_pos h]
  simp only [updateHighlight, renderLocked, clearMenu, List.nil_append, List.map_map]
  have hf : (Element.label ∘ updateHighlightEl st.selected ∘ updateHighlightEl st.selected ∘
      fun p : Nat × MenuItem => lockedElement p.2 p.1) =
      (fun it : MenuItem => some it.label) ∘ Prod.snd := by
    funext p
    simp [updateHighlightEl_label, lockedElement, orStr_some_empty]
  rw [hf, ← List.map_map, List.enum_map_snd]

theorem renderCurrent_scroll_slots (st : State) (h : st.menuData.variant ≠ some "locked") :
    (renderCurrent st).menuRoot =
      (List.range 9).map
        (fun s => updateHighlightEl st.selected (scrollSlot st.menuData.items st.selected s)) := by
  unfold renderCurrent
  rw [if_neg h]
  simp [updateHighlight, renderScroll, clearMenu, slots]

theorem renderCount_append (es fs : List Effect) :
    renderCount (es ++ fs) = renderCount es + renderCount fs := by
  unfold renderCount
  exact List.count_append _ _ _

/-- A failed manifest request (rejected, or answered with a non-success
status, both of which run the `catch` callback) still renders, exactly once, and
what it renders is the rendering of the items the descriptor holds at that
moment: all of their labels in order in the locked variant, the nine-slot window
over them otherwise; the descriptor and `selected` are unchanged. -/
theorem failed_manifest_renders_current_items (st : State)
    (hauto : st.menuData.autoload = true) (hfolder : truthy st.menuData.folder = true) :
    refresh st =
      { st with effects := st.effects ++ [Effect.fetchManifest (manifestPath st.menuData)] } ∧
    (manifestRejected (refresh st)).effects =
      st.effects ++ [Effect.fetchManifest (manifestPath st.menuData),
        Effect.log "Autoload failed:", Effect.render] ∧
    renderCount (manifestRejected (refresh st)).effects = renderCount st.effects + 1 ∧
    (manifestRejected (refresh st)).menuData = st.menuData ∧
    (manifestRejected (refresh st)).selected = st.selected ∧
    (manifestRejected (refresh st)).menuRoot = (renderCurrent st).menuRoot ∧
    (st.menuData.variant = some "locked" →
      (manifestRejected (refresh st)).menuRoot.map Element.label =
        st.menuData.items.map (fun it => some it.label)) ∧
    (st.menuData.variant ≠ some "locked" →
      (manifestRejected (refresh st)).menuRoot =
        (List.range 9).map
          (fun s => updateHighlightEl st.selected
            (scrollSlot st.menuData.items st.selected s))) := by
  have hr := refresh_autoload st hauto hfolder
  have heff : (manifestRejected (refresh st)).effects =
      st.effects ++ [Effect.fetchManifest (manifestPath st.menuData),
        Effect.log "Autoload failed:", Effect.render] := by
    rw [hr]
    simp [manifestRejected]
  have hroot : (manifestRejected (refresh st)).menuRoot = (renderCurrent st).menuRoot := by
    rw [hr]
    unfold manifestRejected
    exact renderCurrent_menuRoot_congr _ _ rfl rfl
  refine ⟨hr, heff, ?_, ?_, ?_, hroot, ?_, ?_⟩
  · rw [heff, renderCount_append]
    rfl
  · simp [manifestRejected]
  · simp [manifestRejected]
  · intro hv
    rw [hroot]
    exact renderCurrent_locked_labels st hv
  · intro hv
    rw [hroot]
    exact renderCurrent_scroll_slots st hv

/-- C15, the code at the failing input: the autoload descriptor declares
only its return entry; the manifest `['x.mp3']` arrives and line 115 writes the
merged list into the descriptor; ArrowDown refreshes, and this time the manifest
request fails.  The `catch` callback then renders the merged items `Back` and
`x.mp3`, not the declared items, which are `Back` alone. -/
theorem failed_manifest_renders_merged_items :
    demoAutoload.items = [{ label := "Back", type := some "return" }] ∧
    (run (startMenu demoAutoload)
      [Event.manifestResolved ["x.mp3"], Event.keydown "ArrowDown",
       Event.manifestRejected]).menuData.items =
      [{ label := "Back", type := some "return" }, { label := "x.mp3" }] ∧
    (run (startMenu demoAutoload)
      [Event.manifestResolved ["x.mp3"], Event.keydown "ArrowDown",
       Event.manifestRejected]).menuRoot.filterMap Element.label = ["Back", "x.mp3"] ∧
    (run (startMenu demoAutoload)
      [Event.manifestResolved ["x.mp3"], Event.keydown "ArrowDown",
       Event.manifestRejected]).effects.getLast? = some Effect.render := by
  refine ⟨rfl, ?_, ?_, ?_⟩
  · decide
  · decide
  · decide

theorem mergeItems_idem (items : List MenuItem) (files : List String) (h : items ≠ []) :
    mergeItems (mergeItems items files) files = mergeItems items files := by
  cases items with
  | nil => exact absurd rfl h
  | cons a l => simp [mergeItems]

/-- C16: the autoload merge is idempotent: for an autoload descriptor with a
non-empty item list and any manifest, a second refresh after the first has
completed asks for the manifest again, and when the same manifest arrives the
descriptor (so the items and their number), `selected` and the rendered list
are what they were after the first: the item list does not grow. -/
theorem autoload_merge_idempotent (st : State) (files : List String)
    (hauto : st.menuData.autoload = true) (hfolder : truthy st.menuData.folder = true)
    (hitems : st.menuData.items ≠ []) :
    refresh (manifestResolved (refresh st) files) =
      { manifestResolved (refresh st) files with
        effects := (manifestResolved (refresh st) files).effects ++
          [Effect.fetchManifest (manifestPath st.menuData)] } ∧
    (manifestResolved (refresh (manifestResolved (refresh st) files)) files).menuData =
      (manifestResolved (refresh st) files).menuData ∧
    (manifestResolved (refresh (manifestResolved (refresh st) files)) files).menuData.items =
      (manifestResolved (refresh st) files).menuData.items ∧
    (manifestResolved (refresh (manifestResolved (refresh st) files)) files).menuData.items.length
      = 1 + files.length ∧
    (manifestResolved (refresh (manifestResolved (refresh st) files)) files).selected =
      (manifestResolved (refresh st) files).selected ∧
    (manifestResolved (refresh (manifestResolved (refresh st) files)) files).menuRoot =
      (manifestResolved (refresh st) files).menuRoot := by
  have hd : (manifestResolved (refresh st) files).menuData =
      { st.menuData with items := mergeItems st.menuData.items files } := by
    simp [manifestResolved]
  have hs : (manifestResolved (refresh st) files).selected =
      Min.min st.selected (((mergeItems st.menuData.items files).length : Int) - 1) := by
    simp [manifestResolved]
  have hauto1 : (manifestResolved (refresh st) files).menuData.autoload = true := by
    rw [hd]; exact hauto
  have hfolder1 : truthy (manifestResolved (refresh st) files).menuData.folder = true := by
    rw [hd]; exact hfolder
  have hpath : manifestPath (manifestResolved (refresh st) files).menuData =
      manifestPath st.menuData := by
    rw [hd]; rfl
  have hr1 := refresh_autoload (manifestResolved (refresh st) files) hauto1 hfolder1
  rw [hpath] at hr1
  have hd2 : (manifestResolved (refresh (manifestResolved (refresh st) files)) files).menuData =
      (manifestResolved (refresh st) files).menuData := by
    have : (manifestResolved (refresh (manifestResolved (refresh st) files)) files).menuData =
        { (manifestResolved (refresh st) files).menuData with
          items := mergeItems (manifestResolved (refresh st) files).menuData.items files } := by
      simp [manifestResolved]
    rw [this, hd]
    simp only
    rw [mergeItems_idem _ _ hitems]
  have hs2 : (manifestResolved (refresh (manifestResolved (refresh st) files)) files).selected =
      (manifestResolved (refresh st) files).selected := by
    have : (manifestResolved (refresh (manifestResolved (refresh st) files)) files).selected =
        Min.min (manifestResolved (refresh st) files).selected
          (((mergeItems (manifestResolved (refresh st) files).menuData.items files).length : Int)
            - 1) := by
      simp [manifestResolved]
    rw [this, hs, hd]
    simp only
    rw [mergeItems_idem _ _ hitems]
    omega
  refine ⟨hr1, hd2, by rw [hd2], ?_, hs2, ?_⟩
  · rw [hd2, hd]
    exact mergeItems_length _ _ hitems
  · have e1 : (manifestResolved (refresh (manifestResolved (refresh st) files)) files).menuRoot =
        (renderCurrent
          (manifestResolved (refresh (manifestResolved (refresh st) files)) files)).menuRoot := by
      unfold manifestResolved
      exact renderCurrent_menuRoot_congr _ _ (by simp) (by simp)
    have e2 : (manifestResolved (refresh st) files).menuRoot =
        (renderCurrent (manifestResolved (refresh st) files)).menuRoot := by
      unfold manifestResolved
      exact renderCurrent_menuRoot_congr _ _ (by simp) (by simp)
    rw [e1, e2]
    exact renderCurrent_menuRoot_congr _ _ hd2 hs2

/-- C16, at the autoload scenario of the design: a second refresh with the
manifest `['x.mp3','y.mp3']` leaves three items. -/
theorem autoload_merge_idempotent_witness :
    (manifestResolved (refresh (manifestResolved (refresh { menuData := demoAutoload })
      ["x.mp3", "y.mp3"])) ["x.mp3", "y.mp3"]).menuData.items.length
      = 1 + ["x.mp3", "y.mp3"].length :=
  (autoload_merge_idempotent { menuData := demoAutoload } ["x.mp3", "y.mp3"] rfl (by decide)
    (by decide)).2.2.2.1

end Pixie
